import Mathlib

/-!
Verification development for the tienda point-of-sale backend.

The definitions below are a shallow embedding of the TypeScript services in
`backend/src/services` (saleService, inventoryService, sequenceService,
auditService).  Decimal.js values are modelled as exact rationals (ℚ);
`toDecimalPlaces(n)` (ROUND_HALF_UP, away from zero on ties) is modelled by
`roundDp n`.  The Prisma store is modelled as an explicit `DB` record threaded
through each operation; a Prisma `$transaction` corresponds to returning the
updated `DB` only on success, so an error leaves the caller's `DB` untouched
(rollback).  Promise-based time stamps (`createdAt`, `voidedAt`) are not
modelled.
-/

/-- Movement kinds of the inventory ledger (Prisma enum `MovementType`). -/
inductive MovementType where
  | ENTRY
  | SALE
  | ADJUSTMENT
  | RETURN
  | VOID
deriving DecidableEq, Repr

/-- Payment methods (Prisma enum `PaymentMethod`). -/
inductive PaymentMethod where
  | CASH
  | CARD
  | TRANSFER
  | MIXED
deriving DecidableEq, Repr

/-- Sale statuses (Prisma enum `SaleStatus`). -/
inductive SaleStatus where
  | COMPLETED
  | VOIDED
  | PARTIAL_RETURN
deriving DecidableEq, Repr

/-- Decimal.js `toDecimalPlaces dp` with the default ROUND_HALF_UP mode:
round to `dp` decimal places, ties away from zero. -/
def roundDp (dp : ℕ) (q : ℚ) : ℚ :=
  if 0 ≤ q then (⌊q * 10 ^ dp + 1 / 2⌋ : ℚ) / 10 ^ dp
  else -((⌊-q * 10 ^ dp + 1 / 2⌋ : ℚ) / 10 ^ dp)

/-- JavaScript `s.trim() === ''` (the string holds only whitespace);
the guard `!reason || reason.trim() === ''` of the services. -/
def blankString (s : String) : Bool :=
  s.data.all (fun c => c = ' ' ∨ c = '\t' ∨ c = '\n' ∨ c = '\r')

/-- Prisma model `Product` (the fields the ledger subsystem reads). -/
structure Product where
  id : String
  name : String
  sku : String
  salePrice : ℚ
  taxRate : ℚ
  isActive : Bool
  currentStock : Int
deriving DecidableEq, Repr

/-- Prisma model `StoreConfig` (the fields the ledger subsystem reads). -/
structure StoreConfig where
  allowNegativeStock : Bool
deriving DecidableEq, Repr

/-- Prisma model `InventoryMovement`: one immutable ledger entry. -/
structure InventoryMovement where
  productId : String
  userId : String
  type : MovementType
  quantity : Int
  previousStock : Int
  newStock : Int
  unitCost : Option ℚ
  reason : Option String
  referenceId : Option String
  referenceType : Option String
deriving DecidableEq, Repr

/-- Prisma model `SaleItem` (snapshot of the product at sale time). -/
structure SaleItem where
  id : String
  productId : String
  productName : String
  productSku : String
  quantity : Int
  unitPrice : ℚ
  discountPercent : ℚ
  discountAmount : ℚ
  taxRate : ℚ
  taxAmount : ℚ
  subtotal : ℚ
  total : ℚ
  returnedQty : Int
deriving DecidableEq, Repr

/-- Prisma model `Sale`. -/
structure Sale where
  id : String
  receiptNumber : Nat
  userId : String
  status : SaleStatus
  subtotal : ℚ
  discountAmount : ℚ
  taxAmount : ℚ
  total : ℚ
  paymentMethod : PaymentMethod
  amountPaid : ℚ
  changeAmount : ℚ
  notes : Option String
  voidReason : Option String
  voidedBy : Option String
  items : List SaleItem
deriving DecidableEq, Repr

/-- Prisma model `ReturnItem`. -/
structure ReturnItem where
  productId : String
  quantity : Int
  unitPrice : ℚ
  refundAmount : ℚ
deriving DecidableEq, Repr

/-- Prisma model `Return`. -/
structure ReturnRec where
  id : String
  returnNumber : Nat
  saleId : String
  userId : String
  reason : String
  totalRefund : ℚ
  items : List ReturnItem
deriving DecidableEq, Repr

/-- The durable store: products, store policy, named sequences, sales,
the inventory ledger and return records. -/
structure DB where
  products : List Product
  storeConfig : Option StoreConfig
  sequences : List (String × Nat)
  sales : List Sale
  movements : List InventoryMovement
  returnRecords : List ReturnRec
deriving DecidableEq, Repr

/-! ## sequenceService -/

namespace sequenceService

/-- Look up the counter row for a sequence id. -/
def seqLookup (seqs : List (String × Nat)) (sid : String) : Option Nat :=
  (seqs.find? (fun p => p.1 == sid)).map (fun p => p.2)

/-- `sequenceService.getNextValue`: upsert — create the row at value 1, or
atomically increment — and return the resulting current value. -/
def getNextValue (seqs : List (String × Nat)) (sid : String) :
    Nat × List (String × Nat) :=
  match seqLookup seqs sid with
  | none => (1, (sid, 1) :: seqs)
  | some v => (v + 1, seqs.map (fun p => if p.1 == sid then (p.1, v + 1) else p))

/-- `sequenceService.getCurrentValue`: the current value, or 0 when the row
does not exist (`sequence?.currentValue || 0`). -/
def getCurrentValue (seqs : List (String × Nat)) (sid : String) : Nat :=
  (seqLookup seqs sid).getD 0

/-- `sequenceService.resetSequence`: administrative upsert to a fixed value. -/
def resetSequence (seqs : List (String × Nat)) (sid : String) (value : Nat) :
    List (String × Nat) :=
  match seqLookup seqs sid with
  | none => (sid, value) :: seqs
  | some _ => seqs.map (fun p => if p.1 == sid then (p.1, value) else p)

/-- `SEQUENCES.RECEIPT`. -/
def RECEIPT : String := "receipt_number"

/-- `SEQUENCES.RETURN` (the return-number sequence id). -/
def RETURNSEQ : String := "return_number"

/-- Run `n` successive `getNextValue` calls against one sequence id,
collecting the returned values. -/
def runNextValues (seqs : List (String × Nat)) (sid : String) :
    Nat → List Nat × List (String × Nat)
  | 0 => ([], seqs)
  | n + 1 =>
    let r := getNextValue seqs sid
    let rest := runNextValues r.2 sid n
    (r.1 :: rest.1, rest.2)

end sequenceService

/-! ## auditService -/

/-- Input of `auditService.log` (interface `AuditLogData`). -/
structure AuditLogData where
  userId : Option String
  action : String
  entity : String
  entityId : Option String
  ipAddress : Option String
  description : Option String
deriving DecidableEq, Repr

/-- Observable outcome of one `auditService.log` call: whether the row was
persisted, and the message written to the console by the `catch` branch. -/
structure AuditOutcome where
  persisted : Bool
  consoleError : Option String
deriving DecidableEq, Repr

namespace auditService

/-- `auditService.log`: tries to persist the audit row; any persistence
failure is caught and only written to the console (`console.error`), so the
call itself resolves normally.  `persistResult` stands for the outcome of the
`prisma.auditLog.create` call; the `Except` codomain records whether an error
escapes to the caller. -/
def log (_data : AuditLogData) (persistResult : Except String Unit) :
    Except String AuditOutcome :=
  match persistResult with
  | .ok _ => .ok { persisted := true, consoleError := none }
  | .error e => .ok { persisted := false,
                      consoleError := some ("Error creating audit log: " ++ e) }

end auditService

/-! ## inventoryService -/

/-- Business errors of `inventoryService.createMovement` (`AppError`s).
`insufficientStock` carries the two values interpolated into the error
message: the product name and the available (previous) stock. -/
inductive MovementError where
  | productNotFound
  | insufficientStock (productName : String) (available : Int)
deriving DecidableEq, Repr

/-- Input of `inventoryService.createMovement`. -/
structure MovementInput where
  productId : String
  userId : String
  type : MovementType
  quantity : Int
  unitCost : Option ℚ
  reason : Option String
  referenceId : Option String
  referenceType : Option String
deriving DecidableEq, Repr

/-- The signed stock delta computed from the movement kind
(the `switch (input.type)` of `createMovement`). -/
def quantityChange (t : MovementType) (q : Int) : Int :=
  match t with
  | .ENTRY => (q.natAbs : Int)
  | .RETURN => (q.natAbs : Int)
  | .VOID => (q.natAbs : Int)
  | .SALE => -(q.natAbs : Int)
  | .ADJUSTMENT => q

/-- `storeConfig?.allowNegativeStock` (false when the config row is absent). -/
def negativeStockAllowed (cfg : Option StoreConfig) : Bool :=
  (cfg.map (fun c => c.allowNegativeStock)).getD false

/-- First product with the given id (`prisma.product.findUnique`). -/
def findProduct (db : DB) (pid : String) : Option Product :=
  db.products.find? (fun p => p.id == pid)

/-- Current stock of a product, by id. -/
def stockOf (db : DB) (pid : String) : Option Int :=
  (findProduct db pid).map (fun p => p.currentStock)

namespace inventoryService

/-- `inventoryService.createMovement`: load the product, compute the signed
delta and the new stock, enforce the negative-stock policy, append the
immutable movement row and write the product's new stock. -/
def createMovement (db : DB) (input : MovementInput) :
    Except MovementError (InventoryMovement × DB) :=
  match db.products.find? (fun p => p.id == input.productId) with
  | none => .error .productNotFound
  | some product =>
    let previousStock := product.currentStock
    let qc := quantityChange input.type input.quantity
    let newStock := previousStock + qc
    if newStock < 0 ∧ ¬ negativeStockAllowed db.storeConfig then
      .error (.insufficientStock product.name previousStock)
    else
      let movement : InventoryMovement :=
        { productId := input.productId
          userId := input.userId
          type := input.type
          quantity := qc
          previousStock := previousStock
          newStock := newStock
          unitCost := input.unitCost
          reason := input.reason
          referenceId := input.referenceId
          referenceType := input.referenceType }
      let db' : DB :=
        { db with
          movements := db.movements ++ [movement]
          products := db.products.map
            (fun p => if p.id == input.productId then
                        { p with currentStock := newStock } else p) }
      .ok (movement, db')

/-- Run a list of independent `createMovement` calls; a failed call changes
nothing and the remaining calls still run. -/
def runMovements (db : DB) : List MovementInput → DB
  | [] => db
  | i :: rest =>
    match createMovement db i with
    | .ok r => runMovements r.2 rest
    | .error _ => runMovements db rest

end inventoryService

/-- Sum of the recorded (signed) deltas of the movements of one product. -/
def movementDeltas (pid : String) (ms : List InventoryMovement) : Int :=
  (ms.filter (fun m => m.productId == pid)).foldl (fun a m => a + m.quantity) 0

/-! ## saleService: createSale -/

/-- One cart line of `CreateSaleInput`. -/
structure SaleItemInput where
  productId : String
  quantity : Int
  discountPercent : Option ℚ
deriving DecidableEq, Repr

/-- `CreateSaleInput` of `saleService.createSale`. -/
structure CreateSaleInput where
  items : List SaleItemInput
  paymentMethod : PaymentMethod
  amountPaid : ℚ
  globalDiscountPercent : Option ℚ
  notes : Option String
deriving DecidableEq, Repr

/-- Business errors of `saleService` (`AppError`s).  Payload fields are the
values interpolated into the corresponding error message. -/
inductive SaleError where
  | emptyItems
  | productMissing
  | productInactive (productName : String)
  | insufficientStock (productName : String) (available : Int)
  | insufficientPayment (total : ℚ)
  | saleNotFound
  | reasonRequired
  | alreadyVoided
  | returnOnVoidedSale
  | itemNotInSale (productId : String)
  | excessiveReturnQuantity (available : Int)
  | movementError (e : MovementError)
  | auditError (msg : String)
deriving DecidableEq, Repr

/-- The effective per-item discount percent (`item.discountPercent || 0`). -/
def itemDiscountPercent (it : SaleItemInput) : ℚ :=
  it.discountPercent.getD 0

/-- `lineSubtotal = unitPrice.times(quantity)`. -/
def lineSubtotal (p : Product) (it : SaleItemInput) : ℚ :=
  p.salePrice * (it.quantity : ℚ)

/-- `lineDiscount = lineSubtotal.times(discountPercent).dividedBy(100)`. -/
def lineDiscount (p : Product) (it : SaleItemInput) : ℚ :=
  lineSubtotal p it * itemDiscountPercent it / 100

/-- `lineSubtotalAfterDiscount = lineSubtotal.minus(lineDiscount)`. -/
def lineAfterDiscount (p : Product) (it : SaleItemInput) : ℚ :=
  lineSubtotal p it - lineDiscount p it

/-- `lineTax = lineSubtotalAfterDiscount.times(taxRate)`. -/
def lineTax (p : Product) (it : SaleItemInput) : ℚ :=
  lineAfterDiscount p it * p.taxRate

/-- `lineTotal = lineSubtotalAfterDiscount.plus(lineTax)`. -/
def lineTotal (p : Product) (it : SaleItemInput) : ℚ :=
  lineAfterDiscount p it + lineTax p it

/-- The `SaleItem` row pushed for one line (persisted fields rounded with
`toDecimalPlaces` exactly as in the source). -/
def mkSaleItem (p : Product) (it : SaleItemInput) : SaleItem :=
  { id := ""
    productId := p.id
    productName := p.name
    productSku := p.sku
    quantity := it.quantity
    unitPrice := roundDp 2 p.salePrice
    discountPercent := roundDp 2 (itemDiscountPercent it)
    discountAmount := roundDp 2 (lineDiscount p it)
    taxRate := roundDp 4 p.taxRate
    taxAmount := roundDp 2 (lineTax p it)
    subtotal := roundDp 2 (lineAfterDiscount p it)
    total := roundDp 2 (lineTotal p it)
    returnedQty := 0 }

/-- Pair each input line with its product (`products.find(...)!`); `none`
when some product id has no match. -/
def saleLines (prods : List Product) :
    List SaleItemInput → Option (List (Product × SaleItemInput))
  | [] => some []
  | it :: rest =>
    match prods.find? (fun p => p.id == it.productId) with
    | none => none
    | some p => (saleLines prods rest).map (fun l => (p, it) :: l)

/-- The pre-validation loop of `createSale`: active products and (unless the
policy allows negative stock) sufficient stock. -/
def validateSaleItems (prods : List Product) (cfg : Option StoreConfig) :
    List SaleItemInput → Except SaleError Unit
  | [] => .ok ()
  | it :: rest =>
    match prods.find? (fun p => p.id == it.productId) with
    | none => validateSaleItems prods cfg rest
    | some p =>
      if ¬ p.isActive then .error (.productInactive p.name)
      else if p.currentStock < it.quantity ∧ ¬ negativeStockAllowed cfg then
        .error (.insufficientStock p.name p.currentStock)
      else validateSaleItems prods cfg rest

/-- Totals of a sale as computed inside the transaction. -/
structure SaleTotals where
  subtotal : ℚ
  totalTax : ℚ
  globalDiscount : ℚ
  total : ℚ
  changeAmount : ℚ
deriving DecidableEq, Repr

/-- The global-discount block of `createSale`: when
`globalDiscountPercent > 0`, subtract `subtotal * percent / 100` from the
subtotal and recompute the tax total from the persisted sale items, taking
each item's proportional share of the global discount off its stored
after-item-discount subtotal before taxing it. -/
def applyGlobalDiscount (gdpOpt : Option ℚ) (subtotal0 totalTax0 : ℚ)
    (saleItems : List SaleItem) : ℚ × ℚ × ℚ :=
  match gdpOpt with
  | none => (subtotal0, totalTax0, 0)
  | some gdp =>
    if 0 < gdp then
      let globalDiscount := subtotal0 * gdp / 100
      let subtotal := subtotal0 - globalDiscount
      let totalTax := saleItems.foldl
        (fun acc item =>
          let proportionalDiscount :=
            globalDiscount * item.subtotal / (subtotal + globalDiscount)
          acc + (item.subtotal - proportionalDiscount) * item.taxRate) 0
      (subtotal, totalTax, globalDiscount)
    else (subtotal0, totalTax0, 0)

/-- Accumulated subtotal before the global discount
(`subtotal += lineSubtotalAfterDiscount` over the lines). -/
def saleSubtotal0 (lines : List (Product × SaleItemInput)) : ℚ :=
  lines.foldl (fun acc pi => acc + lineAfterDiscount pi.1 pi.2) 0

/-- Accumulated tax before the global discount
(`totalTax += lineTax` over the lines). -/
def saleTotalTax0 (lines : List (Product × SaleItemInput)) : ℚ :=
  lines.foldl (fun acc pi => acc + lineTax pi.1 pi.2) 0

/-- All totals of `createSale`: line accumulation, global-discount block,
`total = subtotal + totalTax` and
`changeAmount = amountPaid - total` clamped at 0. -/
def saleTotals (lines : List (Product × SaleItemInput)) (gdpOpt : Option ℚ)
    (amountPaid : ℚ) : SaleTotals :=
  let saleItems := lines.map (fun pi => mkSaleItem pi.1 pi.2)
  let r := applyGlobalDiscount gdpOpt (saleSubtotal0 lines) (saleTotalTax0 lines) saleItems
  let total := r.1 + r.2.1
  { subtotal := r.1
    totalTax := r.2.1
    globalDiscount := r.2.2
    total := total
    changeAmount := if 0 < amountPaid - total then amountPaid - total else 0 }

/-- The SALE movements of `createSale`: debit inventory for every input line
inside the transaction, aborting the whole unit of work on failure. -/
def saleMovements (userId saleId : String) :
    DB → List SaleItemInput → Except SaleError DB
  | db, [] => .ok db
  | db, it :: rest =>
    match inventoryService.createMovement db
      { productId := it.productId
        userId := userId
        type := .SALE
        quantity := it.quantity
        unitCost := none
        reason := none
        referenceId := some saleId
        referenceType := some "sale" } with
    | .error e => .error (.movementError e)
    | .ok r => saleMovements userId saleId r.2 rest

/-- The length check `products.length !== productIds.length` of `createSale`:
`findMany` returns each distinct existing product once, so the check passes
exactly when the fetched list is as long as the id list. -/
def productsLengthCheck (db : DB) (items : List SaleItemInput) : Bool :=
  let productIds := items.map (fun it => it.productId)
  (db.products.filter (fun p => productIds.contains p.id)).length =
    productIds.length

/-- The fetched product list (`prisma.product.findMany` over the cart ids). -/
def fetchedProducts (db : DB) (items : List SaleItemInput) : List Product :=
  let productIds := items.map (fun it => it.productId)
  db.products.filter (fun p => productIds.contains p.id)

/-- Audit epilogue shared by the engine operations: `auditService.log` runs
after the transaction commits; an error escaping it would surface to the
caller as `auditError`. -/
def finishWithAudit {α : Type} (persistResult : Except String Unit) (res : α) :
    Except SaleError α :=
  match auditService.log
    { userId := none, action := "", entity := "", entityId := none,
      ipAddress := none, description := none } persistResult with
  | .ok _ => .ok res
  | .error e => .error (.auditError e)

namespace saleService

/-- `saleService.createSale` up to the end of its transaction: validation,
then one atomic unit of work (receipt number, totals, payment check, sale
row, item rows, SALE movements).  `newSaleId` stands for the id generated by
the store. -/
def createSaleCore (db : DB) (input : CreateSaleInput)
    (userId newSaleId : String) : Except SaleError (Sale × DB) :=
  if input.items.isEmpty then .error .emptyItems
  else if ¬ productsLengthCheck db input.items then .error .productMissing
  else
    let fetched := fetchedProducts db input.items
    match validateSaleItems fetched db.storeConfig input.items with
    | .error e => .error e
    | .ok _ =>
      match saleLines fetched input.items with
      | none => .error .productMissing
      | some lines =>
        let seqr := sequenceService.getNextValue db.sequences sequenceService.RECEIPT
        let t := saleTotals lines input.globalDiscountPercent input.amountPaid
        if input.amountPaid < t.total then .error (.insufficientPayment t.total)
        else
          let sale : Sale :=
            { id := newSaleId
              receiptNumber := seqr.1
              userId := userId
              status := .COMPLETED
              subtotal := roundDp 2 t.subtotal
              discountAmount := roundDp 2 t.globalDiscount
              taxAmount := roundDp 2 t.totalTax
              total := roundDp 2 t.total
              paymentMethod := input.paymentMethod
              amountPaid := roundDp 2 input.amountPaid
              changeAmount := roundDp 2 t.changeAmount
              notes := input.notes
              voidReason := none
              voidedBy := none
              items := lines.map (fun pi => mkSaleItem pi.1 pi.2) }
          let db1 : DB := { db with sequences := seqr.2, sales := db.sales ++ [sale] }
          match saleMovements userId newSaleId db1 input.items with
          | .error e => .error e
          | .ok db2 => .ok (sale, db2)

/-- `saleService.createSale`: the transaction followed by the audit
notification (`auditPersist` is the outcome of the audit row write). -/
def createSale (db : DB) (input : CreateSaleInput) (userId newSaleId : String)
    (auditPersist : Except String Unit) : Except SaleError (Sale × DB) :=
  match createSaleCore db input userId newSaleId with
  | .error e => .error e
  | .ok res => finishWithAudit auditPersist res

end saleService

/-! ## saleService: voidSale -/

/-- The "restaurar inventario" loop of `voidSale`: one VOID movement per sale
item, with the quantity debited at sale time. -/
def voidMovements (userId saleId : String) :
    DB → List SaleItem → Except SaleError DB
  | db, [] => .ok db
  | db, item :: rest =>
    match inventoryService.createMovement db
      { productId := item.productId
        userId := userId
        type := .VOID
        quantity := item.quantity
        unitCost := none
        reason := some "void"
        referenceId := some saleId
        referenceType := some "void" } with
    | .error e => .error (.movementError e)
    | .ok r => voidMovements userId saleId r.2 rest

/-- The update applied to the sale row by `voidSale`. -/
def voidedSaleRecord (sale : Sale) (reason userId : String) : Sale :=
  { sale with status := .VOIDED, voidReason := some reason,
              voidedBy := some userId }

namespace saleService

/-- `saleService.voidSale` up to the end of its transaction: reject a blank
reason, a missing sale and an already-voided sale; otherwise mark the sale
VOIDED and restore, for every sale item, exactly the quantity debited at sale
time. -/
def voidSaleCore (db : DB) (saleId reason userId : String) :
    Except SaleError (Sale × DB) :=
  if blankString reason then .error .reasonRequired
  else
    match db.sales.find? (fun s => s.id == saleId) with
    | none => .error .saleNotFound
    | some sale =>
      if sale.status = SaleStatus.VOIDED then .error .alreadyVoided
      else
        let db1 : DB :=
          { db with
            sales := db.sales.map
              (fun s => if s.id == saleId then voidedSaleRecord s reason userId
                        else s) }
        match voidMovements userId saleId db1 sale.items with
        | .error e => .error e
        | .ok db2 => .ok (voidedSaleRecord sale reason userId, db2)

/-- `saleService.voidSale`: the transaction followed by the audit
notification. -/
def voidSale (db : DB) (saleId reason userId : String)
    (auditPersist : Except String Unit) : Except SaleError (Sale × DB) :=
  match voidSaleCore db saleId reason userId with
  | .error e => .error e
  | .ok res => finishWithAudit auditPersist res

end saleService

/-! ## saleService: createReturn -/

/-- One requested return line. -/
structure ReturnItemInput where
  productId : String
  quantity : Int
deriving DecidableEq, Repr

/-- First sale item for a product id (`sale.items.find(...)`). -/
def findSaleItem (items : List SaleItem) (pid : String) : Option SaleItem :=
  items.find? (fun si => si.productId == pid)

/-- The "Validar items" loop of `createReturn`: every requested product must
be among the sale's items and the requested quantity must not exceed
`quantity - returnedQty`. -/
def validateReturnItems (saleItems : List SaleItem) :
    List ReturnItemInput → Except SaleError Unit
  | [] => .ok ()
  | ri :: rest =>
    match findSaleItem saleItems ri.productId with
    | none => .error (.itemNotInSale ri.productId)
    | some si =>
      if si.quantity - si.returnedQty < ri.quantity then
        .error (.excessiveReturnQuantity (si.quantity - si.returnedQty))
      else validateReturnItems saleItems rest

/-- The `ReturnItem` row pushed for one requested line (refund from the unit
price snapshotted on the sale item). -/
def mkReturnItem (si : SaleItem) (ri : ReturnItemInput) : ReturnItem :=
  { productId := ri.productId
    quantity := ri.quantity
    unitPrice := roundDp 2 si.unitPrice
    refundAmount := roundDp 2 (si.unitPrice * (ri.quantity : ℚ)) }

/-- Accumulated `totalRefund` over the requested lines
(`refundAmount = saleItem.unitPrice * quantity`); the lookup default can not
fire once validation has passed. -/
def returnRefundTotal (snapshot : List SaleItem)
    (reqItems : List ReturnItemInput) : ℚ :=
  reqItems.foldl
    (fun acc ri =>
      acc + ((findSaleItem snapshot ri.productId).map
        (fun si => si.unitPrice * (ri.quantity : ℚ))).getD 0) 0

/-- Write an absolute `returnedQty` on one sale item row
(`tx.saleItem.update` keyed by the sale item id). -/
def writeReturnedQty (db : DB) (saleId itemId : String) (value : Int) : DB :=
  { db with
    sales := db.sales.map
      (fun s => if s.id == saleId then
          { s with
            items := s.items.map
              (fun si => if si.id == itemId then
                  { si with returnedQty := value } else si) }
        else s) }

/-- The per-item loop of `createReturn`: push the return row, write
`returnedQty = saleItem.returnedQty + quantity` (both read from the snapshot
fetched before the loop) and record a RETURN movement.  The `none` branch
models the source's non-null assertion, unreachable after validation. -/
def applyReturnUpdates (snapshot : List SaleItem) (saleId userId : String) :
    DB → List ReturnItemInput → Except SaleError (DB × List ReturnItem)
  | db, [] => .ok (db, [])
  | db, ri :: rest =>
    match findSaleItem snapshot ri.productId with
    | none => .error (.itemNotInSale ri.productId)
    | some si =>
      let db1 := writeReturnedQty db saleId si.id (si.returnedQty + ri.quantity)
      match inventoryService.createMovement db1
        { productId := ri.productId
          userId := userId
          type := .RETURN
          quantity := ri.quantity
          unitCost := none
          reason := some "return"
          referenceId := some saleId
          referenceType := some "return" } with
      | .error e => .error (.movementError e)
      | .ok r =>
        match applyReturnUpdates snapshot saleId userId r.2 rest with
        | .error e => .error e
        | .ok r2 => .ok (r2.1, mkReturnItem si ri :: r2.2)

/-- The requested quantity for a product id (`returnItem?.quantity || 0`). -/
def requestedQty (reqItems : List ReturnItemInput) (pid : String) : Int :=
  ((reqItems.find? (fun ri => ri.productId == pid)).map
    (fun ri => ri.quantity)).getD 0

/-- The `allItemsReturned` check of `createReturn`, over the snapshot taken
before the loop. -/
def allItemsReturned (snapshot : List SaleItem)
    (reqItems : List ReturnItemInput) : Bool :=
  snapshot.all (fun si =>
    si.quantity ≤ si.returnedQty + requestedQty reqItems si.productId)

/-- Set the status of one sale row. -/
def setSaleStatus (db : DB) (saleId : String) (st : SaleStatus) : DB :=
  { db with
    sales := db.sales.map
      (fun s => if s.id == saleId then { s with status := st } else s) }

namespace saleService

/-- `saleService.createReturn`: reject a blank reason, a missing sale and a
voided sale; validate every requested line; then, in one unit of work, take a
return number, write the return rows, bump each affected item's
`returnedQty`, restore inventory and set the sale status to VOIDED when every
item is now fully returned, else PARTIAL_RETURN. -/
def createReturnCore (db : DB) (saleId : String)
    (reqItems : List ReturnItemInput) (reason userId newReturnId : String) :
    Except SaleError (ReturnRec × DB) :=
  if blankString reason then .error .reasonRequired
  else
    match db.sales.find? (fun s => s.id == saleId) with
    | none => .error .saleNotFound
    | some sale =>
      if sale.status = SaleStatus.VOIDED then .error .returnOnVoidedSale
      else
        match validateReturnItems sale.items reqItems with
        | .error e => .error e
        | .ok _ =>
          let seqr := sequenceService.getNextValue db.sequences
            sequenceService.RETURNSEQ
          let db0 : DB := { db with sequences := seqr.2 }
          match applyReturnUpdates sale.items saleId userId db0 reqItems with
          | .error e => .error e
          | .ok r =>
            let retRec : ReturnRec :=
              { id := newReturnId
                returnNumber := seqr.1
                saleId := saleId
                userId := userId
                reason := reason
                totalRefund := roundDp 2 (returnRefundTotal sale.items reqItems)
                items := r.2 }
            let db3 :=
              if allItemsReturned sale.items reqItems then
                setSaleStatus r.1 saleId .VOIDED
              else
                setSaleStatus r.1 saleId .PARTIAL_RETURN
            let db4 : DB := { db3 with returnRecords := db3.returnRecords ++ [retRec] }
            .ok (retRec, db4)

/-- `saleService.createReturn`: the transaction followed by the audit
notification. -/
def createReturn (db : DB) (saleId : String) (reqItems : List ReturnItemInput)
    (reason userId newReturnId : String) (auditPersist : Except String Unit) :
    Except SaleError (ReturnRec × DB) :=
  match createReturnCore db saleId reqItems reason userId newReturnId with
  | .error e => .error e
  | .ok res => finishWithAudit auditPersist res

end saleService

/-- Increase a sale item's `returnedQty` by a quantity. -/
def bumpReturnedQty (si : SaleItem) (q : Int) : SaleItem :=
  { si with returnedQty := si.returnedQty + q }

/-- The quantity a return run will have applied to a product: the requested
quantity when the product is among the (remaining) requested items, else the
fallback `g` (proof bookkeeping for the return loop; with `g = 0` this is
`requestedQty`). -/
def reqQtyAux (reqs : List ReturnItemInput) (g : String → Int)
    (pid : String) : Int :=
  match reqs.find? (fun ri => ri.productId == pid) with
  | some ri => ri.quantity
  | none => g pid

/-! ## Concrete example data (used by witnesses and counterexamples) -/

/-- Example product for inventory scenarios: id and name differ. -/
def exProduct : Product :=
  { id := "p1", name := "Cola", sku := "SKU1", salePrice := 10,
    taxRate := 19 / 100, isActive := true, currentStock := 10 }

/-- Example store with one product and negative stock disallowed. -/
def exDB : DB :=
  { products := [exProduct]
    storeConfig := some { allowNegativeStock := false }
    sequences := []
    sales := []
    movements := []
    returnRecords := [] }

/-- An ENTRY movement request of 5 units. -/
def exEntryInput : MovementInput :=
  { productId := "p1", userId := "u1", type := .ENTRY, quantity := 5,
    unitCost := none, reason := none, referenceId := none,
    referenceType := none }

/-- The ledger row recorded for `exEntryInput` against `exDB`. -/
def exEntryMovement : InventoryMovement :=
  { productId := "p1", userId := "u1", type := .ENTRY, quantity := 5,
    previousStock := 10, newStock := 15, unitCost := none, reason := none,
    referenceId := none, referenceType := none }

/-- The store after recording `exEntryInput` against `exDB`. -/
def exDBAfterEntry : DB :=
  { exDB with
    products := [{ exProduct with currentStock := 15 }]
    movements := [exEntryMovement] }

/-- A SALE movement request of 20 units — more than the available 10. -/
def exSaleTooMuchInput : MovementInput :=
  { productId := "p1", userId := "u1", type := .SALE, quantity := 20,
    unitCost := none, reason := none, referenceId := none,
    referenceType := none }

/-- Product at price 100, tax rate 0.19. -/
def prodA : Product :=
  { id := "pA", name := "Alpha", sku := "SKA", salePrice := 100,
    taxRate := 19 / 100, isActive := true, currentStock := 50 }

/-- Product at price 300, tax rate 0.10. -/
def prodB : Product :=
  { id := "pB", name := "Beta", sku := "SKB", salePrice := 300,
    taxRate := 10 / 100, isActive := true, currentStock := 50 }

/-- Example store for sale scenarios. -/
def dbSale : DB :=
  { products := [prodA, prodB]
    storeConfig := some { allowNegativeStock := false }
    sequences := []
    sales := []
    movements := []
    returnRecords := [] }

/-- Cart for the tax-after-discount scenario: 1 unit at price 100, item
discount 10%, no global discount; `paid` varies by sub-scenario. -/
def saleInputTaxDisc (paid : ℚ) : CreateSaleInput :=
  { items := [{ productId := "pA", quantity := 1, discountPercent := some 10 }]
    paymentMethod := .CASH
    amountPaid := paid
    globalDiscountPercent := none
    notes := none }

/-- Cart for the global-discount scenario: after-item-discount subtotals 100
and 300, tax rates 0.19 and 0.10, global discount 10%. -/
def saleInputGlobal : CreateSaleInput :=
  { items := [{ productId := "pA", quantity := 1, discountPercent := none },
              { productId := "pB", quantity := 1, discountPercent := none }]
    paymentMethod := .CASH
    amountPaid := 500
    globalDiscountPercent := some 10
    notes := none }

/-- The persisted sale item row for one unit of `prodA`, no item discount. -/
def exItemA : SaleItem :=
  mkSaleItem prodA { productId := "pA", quantity := 1, discountPercent := none }

/-- The persisted sale item row for one unit of `prodB`, no item discount. -/
def exItemB : SaleItem :=
  mkSaleItem prodB { productId := "pB", quantity := 1, discountPercent := none }

/-- Sale item with quantity 5 of which 3 already returned, unit price 100
snapshotted at sale time. -/
def exSaleItemR : SaleItem :=
  { id := "si1", productId := "pA", productName := "Alpha",
    productSku := "SKA", quantity := 5, unitPrice := 100,
    discountPercent := 0, discountAmount := 0, taxRate := 19 / 100,
    taxAmount := 95, subtotal := 500, total := 595, returnedQty := 3 }

/-- Completed sale holding `exSaleItemR` as its only item. -/
def exSaleR : Sale :=
  { id := "s1", receiptNumber := 7, userId := "u1", status := .COMPLETED,
    subtotal := 500, discountAmount := 0, taxAmount := 95, total := 595,
    paymentMethod := .CASH, amountPaid := 595, changeAmount := 0,
    notes := none, voidReason := none, voidedBy := none,
    items := [exSaleItemR] }

/-- Store for the return scenario: the sale exists and the product has
ample non-negative stock.  The product's current `salePrice` (999) differs
from the snapshotted unit price (100). -/
def dbRet : DB :=
  { products := [{ prodA with salePrice := 999 }]
    storeConfig := some { allowNegativeStock := false }
    sequences := []
    sales := [exSaleR]
    movements := []
    returnRecords := [] }

/-- Sale item with quantity 5 of which 2 already returned, for the void
scenario. -/
def exSaleItemV : SaleItem :=
  { exSaleItemR with id := "si2", returnedQty := 2 }

/-- Completed sale holding `exSaleItemV` as its only item. -/
def exSaleV : Sale :=
  { exSaleR with id := "s2", items := [exSaleItemV] }

/-- Store for the void scenario. -/
def dbVoid : DB :=
  { dbRet with sales := [exSaleV] }

/-- The VOID ledger row recorded when voiding `exSaleV`. -/
def exVoidMovement : InventoryMovement :=
  { productId := "pA", userId := "u1", type := .VOID, quantity := 5,
    previousStock := 50, newStock := 55, unitCost := none,
    reason := some "void", referenceId := some "s2",
    referenceType := some "void" }

/-- `exSaleV` after a successful void. -/
def exSaleVoided : Sale := voidedSaleRecord exSaleV "because" "u1"

/-- `dbVoid` after a successful void of sale "s2". -/
def dbVoidAfter : DB :=
  { dbVoid with
    sales := [exSaleVoided]
    products := [{ prodA with salePrice := 999, currentStock := 55 }]
    movements := [exVoidMovement] }

/-- The return record produced by returning 2 units of "pA" from
`exSaleR`. -/
def exReturnRec : ReturnRec :=
  { id := "r1", returnNumber := 1, saleId := "s1", userId := "u1",
    reason := "defect", totalRefund := 200,
    items := [{ productId := "pA", quantity := 2, unitPrice := 100,
                refundAmount := 200 }] }

/-! ## General helper lemmas -/

/-- `find?` commutes with a map that does not change the predicate's value. -/
theorem find?_map_pred {α : Type} (f : α → α) (p : α → Bool)
    (h : ∀ a, p (f a) = p a) :
    ∀ l : List α, (l.map f).find? p = (l.find? p).map f := by
  intro l
  induction l with
  | nil => simp
  | cons a l ih =>
    by_cases ha : p a = true
    · simp only [List.map_cons]
      rw [List.find?_cons_of_pos _ ((h a).trans ha),
        List.find?_cons_of_pos _ ha]
      simp
    · simp only [List.map_cons]
      rw [List.find?_cons_of_neg _ (by simp [h a, ha]),
        List.find?_cons_of_neg _ ha, ih]

/-- A left fold that only accumulates `+ f x` is a sum. -/
theorem foldl_add_eq_sum {α M : Type} [AddCommMonoid M] (f : α → M) :
    ∀ (l : List α) (c : M),
      l.foldl (fun a x => a + f x) c = c + (l.map f).sum := by
  intro l
  induction l with
  | nil => simp
  | cons a l ih =>
    intro c
    simp only [List.foldl_cons, List.map_cons, List.sum_cons, ih (c + f a)]
    rw [add_assoc]

/-- Rounding is exact on a value that already has `dp` decimal places. -/
theorem roundDp_int_div (dp : ℕ) (k : ℤ) :
    roundDp dp ((k : ℚ) / 10 ^ dp) = (k : ℚ) / 10 ^ dp := by
  have hm : (0 : ℚ) < 10 ^ dp := by positivity
  have hfloor : ∀ z : ℤ, (⌊(z : ℚ) + 1 / 2⌋ : ℤ) = z := by
    intro z
    rw [Int.floor_int_add]
    norm_num
  rw [roundDp]
  by_cases hk : (0 : ℚ) ≤ (k : ℚ) / 10 ^ dp
  · rw [if_pos hk, div_mul_cancel₀ _ (ne_of_gt hm), hfloor k]
  · rw [if_neg hk]
    have : -((k : ℚ) / 10 ^ dp) * 10 ^ dp = ((-k : ℤ) : ℚ) := by
      push_cast
      field_simp
    rw [this, hfloor (-k)]
    push_cast
    ring

/-- The audit epilogue never turns a committed result into an error. -/
theorem finishWithAudit_ok {α : Type} (r : Except String Unit) (x : α) :
    finishWithAudit r x = .ok x := by
  cases r <;> rfl

/-- `createSale` is its transaction: the audit step never changes the
result. -/
theorem createSale_eq_core (db : DB) (input : CreateSaleInput)
    (userId newSaleId : String) (r : Except String Unit) :
    saleService.createSale db input userId newSaleId r =
      saleService.createSaleCore db input userId newSaleId := by
  rw [saleService.createSale]
  cases saleService.createSaleCore db input userId newSaleId with
  | error e => rfl
  | ok res => exact finishWithAudit_ok r res

/-- `voidSale` is its transaction: the audit step never changes the
result. -/
theorem voidSale_eq_core (db : DB) (saleId reason userId : String)
    (r : Except String Unit) :
    saleService.voidSale db saleId reason userId r =
      saleService.voidSaleCore db saleId reason userId := by
  rw [saleService.voidSale]
  cases saleService.voidSaleCore db saleId reason userId with
  | error e => rfl
  | ok res => exact finishWithAudit_ok r res

/-- `createReturn` is its transaction: the audit step never changes the
result. -/
theorem createReturn_eq_core (db : DB) (saleId : String)
    (reqItems : List ReturnItemInput) (reason userId newReturnId : String)
    (r : Except String Unit) :
    saleService.createReturn db saleId reqItems reason userId newReturnId r =
      saleService.createReturnCore db saleId reqItems reason userId newReturnId := by
  rw [saleService.createReturn]
  cases saleService.createReturnCore db saleId reqItems reason userId newReturnId with
  | error e => rfl
  | ok res => exact finishWithAudit_ok r res

/-! ## Claim C10 — audit failures never propagate -/

/-- C10: `auditService.log` never propagates an error to its caller — every
persistence failure is swallowed (recorded only on the console), and the
result of a sale, void or return is the same whether the audit write
succeeds or fails. -/
theorem audit_log_never_fails (data : AuditLogData)
    (r : Except String Unit) (db : DB) (input : CreateSaleInput)
    (userId newSaleId saleId reason newReturnId : String)
    (reqItems : List ReturnItemInput) :
    (∃ outcome, auditService.log data r = .ok outcome)
    ∧ saleService.createSale db input userId newSaleId r =
        saleService.createSale db input userId newSaleId (.ok ())
    ∧ saleService.voidSale db saleId reason userId r =
        saleService.voidSale db saleId reason userId (.ok ())
    ∧ saleService.createReturn db saleId reqItems reason userId newReturnId r =
        saleService.createReturn db saleId reqItems reason userId newReturnId (.ok ()) := by
  refine ⟨?_, ?_, ?_, ?_⟩
  · cases r with
    | ok u => exact ⟨_, rfl⟩
    | error e => exact ⟨_, rfl⟩
  · rw [createSale_eq_core, createSale_eq_core]
  · rw [voidSale_eq_core, voidSale_eq_core]
  · rw [createReturn_eq_core, createReturn_eq_core]

/-! ## Claim C9 — sequence generator -/

/-- One `getNextValue` call returns the previous current value plus one. -/
theorem getNextValue_fst (seqs : List (String × Nat)) (sid : String) :
    (sequenceService.getNextValue seqs sid).1 =
      sequenceService.getCurrentValue seqs sid + 1 := by
  rw [sequenceService.getNextValue, sequenceService.getCurrentValue]
  cases h : sequenceService.seqLookup seqs sid <;> simp [h]

/-- After one `getNextValue` call the stored current value is the returned
value. -/
theorem getCurrentValue_after_next (seqs : List (String × Nat)) (sid : String) :
    sequenceService.getCurrentValue (sequenceService.getNextValue seqs sid).2 sid =
      (sequenceService.getNextValue seqs sid).1 := by
  rw [sequenceService.getNextValue]
  cases h : sequenceService.seqLookup seqs sid with
  | none =>
    simp [sequenceService.getCurrentValue, sequenceService.seqLookup]
  | some v =>
    obtain ⟨pr, hpr, hv⟩ := Option.map_eq_some'.mp h
    have hkey := List.find?_some hpr
    simp only [sequenceService.getCurrentValue, sequenceService.seqLookup]
    rw [find?_map_pred _ _ (by
      intro a
      by_cases ha : (a.1 == sid) = true <;> simp [ha])]
    rw [hpr]
    have hps : pr.1 = sid := by simpa using hkey
    simp [hps, hv]

/-- The values of a run of `getNextValue` calls, in closed form. -/
theorem runNextValues_closed_form (sid : String) :
    ∀ (n : Nat) (seqs : List (String × Nat)),
      (sequenceService.runNextValues seqs sid n).1 =
        (List.range n).map
          (fun i => sequenceService.getCurrentValue seqs sid + 1 + i) := by
  intro n
  induction n with
  | zero => intro seqs; simp [sequenceService.runNextValues]
  | succ n ih =>
    intro seqs
    rw [sequenceService.runNextValues]
    simp only
    rw [ih (sequenceService.getNextValue seqs sid).2,
      getCurrentValue_after_next, getNextValue_fst,
      List.range_succ_eq_map]
    simp only [List.map_cons, List.map_map]
    refine congrArg₂ _ (by omega) (List.map_congr_left ?_)
    intro i _
    simp [Function.comp]
    omega

/-- C9: each `getNextValue` call returns strictly more than the sequence's
previous current value; a run of calls with no reset returns strictly
increasing, duplicate-free values; and on a missing counter row the first
call returns 1 and creates the row at 1. -/
theorem sequence_monotone_no_duplicates (seqs : List (String × Nat))
    (sid : String) (n : Nat) :
    sequenceService.getCurrentValue seqs sid <
      (sequenceService.getNextValue seqs sid).1
    ∧ ((sequenceService.runNextValues seqs sid n).1).Pairwise (· < ·)
    ∧ ((sequenceService.runNextValues seqs sid n).1).Nodup
    ∧ (sequenceService.seqLookup seqs sid = none →
        (sequenceService.getNextValue seqs sid).1 = 1 ∧
        sequenceService.seqLookup
          (sequenceService.getNextValue seqs sid).2 sid = some 1) := by
  have hpair : ((sequenceService.runNextValues seqs sid n).1).Pairwise (· < ·) := by
    rw [runNextValues_closed_form]
    exact (List.pairwise_lt_range n).map _ (by omega)
  refine ⟨?_, hpair, hpair.imp (fun hab => Nat.ne_of_lt hab), ?_⟩
  · rw [getNextValue_fst]; omega
  · intro hnone
    rw [sequenceService.getNextValue, hnone]
    simp [sequenceService.seqLookup]

/-- Witness for C9 at concrete inputs: a fresh store, three calls. -/
theorem sequence_monotone_no_duplicates_witness :
    (sequenceService.getNextValue [] "receipt_number").1 = 1 ∧
    sequenceService.seqLookup
      (sequenceService.getNextValue [] "receipt_number").2 "receipt_number" =
      some 1 :=
  (sequence_monotone_no_duplicates [] "receipt_number" 3).2.2.2 rfl

/-! ## Inventory ledger lemmas -/

/-- Anatomy of a successful `createMovement`: the recorded row and the new
store state, in terms of the input and the loaded product. -/
theorem createMovement_ok_spec {db : DB} {input : MovementInput}
    {m : InventoryMovement} {db' : DB}
    (h : inventoryService.createMovement db input = .ok (m, db')) :
    ∃ product,
      db.products.find? (fun p => p.id == input.productId) = some product
      ∧ m.productId = input.productId
      ∧ m.type = input.type
      ∧ m.quantity = quantityChange input.type input.quantity
      ∧ m.previousStock = product.currentStock
      ∧ m.newStock = m.previousStock + m.quantity
      ∧ db'.sales = db.sales
      ∧ db'.sequences = db.sequences
      ∧ db'.storeConfig = db.storeConfig
      ∧ db'.returnRecords = db.returnRecords
      ∧ db'.movements = db.movements ++ [m]
      ∧ db'.products = db.products.map
          (fun p => if p.id == input.productId then
              { p with currentStock := m.newStock } else p) := by
  rw [inventoryService.createMovement] at h
  cases hf : db.products.find? (fun p => p.id == input.productId) with
  | none => rw [hf] at h; cases h
  | some product =>
    rw [hf] at h
    simp only at h
    split at h
    · cases h
    · refine ⟨product, rfl, ?_⟩
      obtain ⟨hm, hdb⟩ := Prod.mk.injEq .. ▸ (Except.ok.injEq .. ▸ h)
      subst hm
      subst hdb
      simp

/-- Stock bookkeeping of a successful `createMovement`: the moved product's
stock becomes the recorded `newStock`; every other product is untouched. -/
theorem createMovement_ok_stock {db : DB} {input : MovementInput}
    {m : InventoryMovement} {db' : DB}
    (h : inventoryService.createMovement db input = .ok (m, db')) :
    stockOf db' input.productId = some m.newStock
    ∧ ∀ pid, pid ≠ input.productId → stockOf db' pid = stockOf db pid := by
  obtain ⟨product, hf, _, _, _, _, _, _, _, _, _, _, hprods⟩ :=
    createMovement_ok_spec h
  have hpid : product.id = input.productId := by
    simpa using List.find?_some hf
  constructor
  · rw [stockOf, findProduct, hprods,
      find?_map_pred _ _ (by
        intro a
        by_cases hb : (a.id == input.productId) = true <;> simp [hb]),
      hf]
    simp [hpid]
  · intro pid hne
    rw [stockOf, findProduct, hprods,
      find?_map_pred _ _ (by
        intro a
        by_cases hb : (a.id == input.productId) = true <;> simp [hb]),
      stockOf, findProduct]
    cases hg : db.products.find? (fun p => p.id == pid) with
    | none => simp
    | some q =>
      have hqid : q.id = pid := by simpa using List.find?_some hg
      have hne2 : q.id ≠ input.productId := by
        rw [hqid]; exact hne
      simp [hne2]

/-- `movementDeltas` as a sum over the product's movements. -/
theorem movementDeltas_eq_sum (pid : String) (ms : List InventoryMovement) :
    movementDeltas pid ms =
      ((ms.filter (fun m => m.productId == pid)).map
        (fun m => m.quantity)).sum := by
  rw [movementDeltas, foldl_add_eq_sum]
  simp

/-- Peeling one movement off `movementDeltas`. -/
theorem movementDeltas_cons (pid : String) (m : InventoryMovement)
    (ms : List InventoryMovement) :
    movementDeltas pid (m :: ms) =
      (if m.productId == pid then m.quantity else 0) + movementDeltas pid ms := by
  by_cases h : (m.productId == pid) = true <;>
    simp [movementDeltas_eq_sum, List.filter_cons, h]

/-- `runMovements` only appends to the ledger. -/
theorem runMovements_movements (inputs : List MovementInput) :
    ∀ db : DB, ∃ suffix,
      (inventoryService.runMovements db inputs).movements =
        db.movements ++ suffix := by
  induction inputs with
  | nil => intro db; exact ⟨[], by simp [inventoryService.runMovements]⟩
  | cons i rest ih =>
    intro db
    rw [inventoryService.runMovements]
    cases h : inventoryService.createMovement db i with
    | error e => exact ih db
    | ok r =>
      obtain ⟨m, db1⟩ := r
      obtain ⟨suf, hsuf⟩ := ih db1
      obtain ⟨_, _, _, _, _, _, _, _, _, _, _, hmv, _⟩ := createMovement_ok_spec h
      exact ⟨[m] ++ suf, by
        simp only [hsuf, hmv, List.append_assoc]⟩

/-- Conservation under a run of movements: the final stock of any product is
its starting stock plus the sum of the deltas recorded during the run. -/
theorem runMovements_conservation (inputs : List MovementInput) :
    ∀ (db : DB) (pid : String) (s : Int), stockOf db pid = some s →
      stockOf (inventoryService.runMovements db inputs) pid =
        some (s + movementDeltas pid
          ((inventoryService.runMovements db inputs).movements.drop
            db.movements.length)) := by
  induction inputs with
  | nil =>
    intro db pid s hs
    simp only [inventoryService.runMovements, List.drop_length]
    simp [hs, movementDeltas]
  | cons i rest ih =>
    intro db pid s hs
    rw [inventoryService.runMovements]
    cases h : inventoryService.createMovement db i with
    | error e => exact ih db pid s hs
    | ok r =>
      obtain ⟨m, db1⟩ := r
      obtain ⟨product, hf, hmpid, _, _, hprev, hnew, _, _, _, _, hmv, _⟩ :=
        createMovement_ok_spec h
      obtain ⟨hself, hother⟩ := createMovement_ok_stock h
      obtain ⟨suf, hsuf⟩ := runMovements_movements rest db1
      have hdrop1 : (inventoryService.runMovements db1 rest).movements.drop
          db.movements.length = m :: suf := by
        rw [hsuf, hmv, List.append_assoc]
        exact List.drop_left db.movements ([m] ++ suf)
      have hdrop2 : (inventoryService.runMovements db1 rest).movements.drop
          db1.movements.length = suf := by
        rw [hsuf]
        exact List.drop_left db1.movements suf
      by_cases hp : pid = i.productId
      · have hstock1 : stockOf db1 pid = some m.newStock := by
          rw [hp]; exact hself
        have hps : s = product.currentStock := by
          rw [stockOf, findProduct, hp, hf] at hs
          simp only [Option.map_some', Option.some.injEq] at hs
          exact hs.symm
        have hihres := ih db1 pid m.newStock hstock1
        rw [hihres, hdrop2, hdrop1, movementDeltas_cons]
        have hbeq : (m.productId == pid) = true := by simp [hmpid, hp]
        rw [if_pos hbeq, hnew, hprev, ← hps]
        congr 1
        omega
      · have hstock1 : stockOf db1 pid = some s := by
          rw [hother pid hp]; exact hs
        have hihres := ih db1 pid s hstock1
        rw [hihres, hdrop2, hdrop1, movementDeltas_cons]
        have hbeq : (m.productId == pid) = false := by
          simp [hmpid]
          intro hcon
          exact absurd hcon.symm hp
        rw [if_neg (by simp [hbeq])]
        simp

/-! ## Claim C4 — ledger movement invariant and conservation -/

/-- C4: every recorded movement satisfies `newStock = previousStock + delta`
with the delta determined by the movement kind (`+|q|` for ENTRY, RETURN and
VOID, `-|q|` for SALE, the signed `q` for ADJUSTMENT); the product's current
stock is updated to exactly `newStock` and no other product changes; and over
any sequence of movements the final stock is the initial stock plus the sum
of all recorded deltas. -/
theorem movement_stock_invariant (db : DB) (input : MovementInput)
    (m : InventoryMovement) (db' : DB) (inputs : List MovementInput)
    (pid : String) (s : Int) :
    (∀ q : Int,
      quantityChange .ENTRY q = (q.natAbs : Int)
      ∧ quantityChange .RETURN q = (q.natAbs : Int)
      ∧ quantityChange .VOID q = (q.natAbs : Int)
      ∧ quantityChange .SALE q = -(q.natAbs : Int)
      ∧ quantityChange .ADJUSTMENT q = q)
    ∧ (inventoryService.createMovement db input = .ok (m, db') →
        m.quantity = quantityChange input.type input.quantity
        ∧ m.newStock = m.previousStock + m.quantity
        ∧ stockOf db' input.productId = some m.newStock
        ∧ (∀ q, q ≠ input.productId → stockOf db' q = stockOf db q))
    ∧ (stockOf db pid = some s →
        stockOf (inventoryService.runMovements db inputs) pid =
          some (s + movementDeltas pid
            ((inventoryService.runMovements db inputs).movements.drop
              db.movements.length))) := by
  refine ⟨fun q => ⟨rfl, rfl, rfl, rfl, rfl⟩, fun h => ?_, fun hs =>
    runMovements_conservation inputs db pid s hs⟩
  obtain ⟨product, hf, _, _, hq, _, hnew, _, _, _, _, _, _⟩ :=
    createMovement_ok_spec h
  obtain ⟨hself, hother⟩ := createMovement_ok_stock h
  exact ⟨hq, hnew, hself, hother⟩

/-- Witness for C4: an ENTRY of 5 against a stock of 10 records
`10 → 15` and the run of one movement conserves stock. -/
theorem movement_stock_invariant_witness :
    (exEntryMovement.quantity = quantityChange .ENTRY 5
      ∧ exEntryMovement.newStock =
          exEntryMovement.previousStock + exEntryMovement.quantity
      ∧ stockOf exDBAfterEntry "p1" = some exEntryMovement.newStock)
    ∧ stockOf (inventoryService.runMovements exDB [exEntryInput]) "p1" =
        some (10 + movementDeltas "p1"
          ((inventoryService.runMovements exDB [exEntryInput]).movements.drop
            exDB.movements.length)) := by
  have h := movement_stock_invariant exDB exEntryInput exEntryMovement
    exDBAfterEntry [exEntryInput] "p1" 10
  have h2 := h.2.1 (by rfl)
  exact ⟨⟨h2.1, h2.2.1, h2.2.2.1⟩, h.2.2 (by rfl)⟩

/-! ## Claim C5 — negative-stock policy (corrected: the error carries the
product name, not the product id) -/

/-- Counterexample to C5 as stated: the `InsufficientStock` error carries the
product's name ("Cola"), not its id ("p1"); for a product whose name differs
from its id, no component of the error equals the product id. -/
theorem movement_error_carries_name_not_id :
    inventoryService.createMovement exDB exSaleTooMuchInput =
      .error (.insufficientStock "Cola" 10)
    ∧ exProduct.id = "p1"
    ∧ exSaleTooMuchInput.productId = "p1"
    ∧ ("Cola" : String) ≠ "p1" := by
  refine ⟨rfl, rfl, rfl, by decide⟩

/-- C5 (amended): `createMovement` fails with `InsufficientStock` exactly
when the new stock would be negative and the externally-owned
allow-negative-stock flag is false; the error carries the product name and
the available quantity; when the flag is true the movement proceeds and may
leave the stock negative. -/
theorem movement_negative_stock_policy (db : DB) (input : MovementInput)
    (product : Product)
    (hfind : db.products.find? (fun p => p.id == input.productId) =
      some product) :
    (inventoryService.createMovement db input =
        .error (.insufficientStock product.name product.currentStock)
      ↔ (product.currentStock + quantityChange input.type input.quantity < 0
          ∧ negativeStockAllowed db.storeConfig = false))
    ∧ (product.currentStock + quantityChange input.type input.quantity < 0 →
        negativeStockAllowed db.storeConfig = true →
        ∃ m db', inventoryService.createMovement db input = .ok (m, db')
          ∧ stockOf db' input.productId =
              some (product.currentStock +
                quantityChange input.type input.quantity)) := by
  constructor
  · rw [inventoryService.createMovement, hfind]
    simp only
    split
    · rename_i hcond
      simp only [Except.error.injEq, MovementError.insufficientStock.injEq]
      constructor
      · intro _
        exact ⟨hcond.1, by
          rcases hcond with ⟨_, hneg⟩
          simpa using hneg⟩
      · intro _
        trivial
    · rename_i hcond
      constructor
      · intro hcon
        cases hcon
      · intro hc
        exact absurd ⟨hc.1, by simp [hc.2]⟩ hcond
  · intro hneg hallow
    have hok : ∃ r, inventoryService.createMovement db input = .ok r := by
      rw [inventoryService.createMovement, hfind]
      simp only
      rw [if_neg (by simp [hallow])]
      exact ⟨_, rfl⟩
    obtain ⟨⟨m, db'⟩, h⟩ := hok
    obtain ⟨product2, hf2, _, _, hq, hprev, hnew, _, _, _, _, _, _⟩ :=
      createMovement_ok_spec h
    have hpp : product2 = product := by
      rw [hf2] at hfind
      exact Option.some.inj hfind
    refine ⟨m, db', h, ?_⟩
    rw [(createMovement_ok_stock h).1, hnew, hprev, hq, hpp]

/-- Witness for C5 (amended): selling 20 from a stock of 10 with negative
stock disallowed produces exactly the name-and-availability error. -/
theorem movement_negative_stock_policy_witness :
    (inventoryService.createMovement exDB exSaleTooMuchInput =
        .error (.insufficientStock exProduct.name exProduct.currentStock)
      ↔ (exProduct.currentStock +
            quantityChange exSaleTooMuchInput.type exSaleTooMuchInput.quantity < 0
          ∧ negativeStockAllowed exDB.storeConfig = false)) :=
  (movement_negative_stock_policy exDB exSaleTooMuchInput exProduct rfl).1

/-! ## Sale engine lemmas -/

/-- Clamping at zero, as computed by the source, is a `max`. -/
theorem ite_pos_sub_eq_max (a b : ℚ) :
    (if 0 < a - b then a - b else 0) = max 0 (a - b) := by
  rcases le_or_lt (a - b) 0 with h | h
  · rw [if_neg (not_lt.mpr h), max_eq_left h]
  · rw [if_pos h, max_eq_right (le_of_lt h)]

/-- The movement loop of `createSale` fails only with wrapped movement
errors. -/
theorem saleMovements_error_form (userId saleId : String) :
    ∀ (items : List SaleItemInput) (db : DB) (e : SaleError),
      saleMovements userId saleId db items = .error e →
        ∃ me, e = .movementError me := by
  intro items
  induction items with
  | nil => intro db e h; cases h
  | cons it rest ih =>
    intro db e h
    rw [saleMovements] at h
    cases hm : inventoryService.createMovement db
      { productId := it.productId, userId := userId, type := .SALE,
        quantity := it.quantity, unitCost := none, reason := none,
        referenceId := some saleId, referenceType := some "sale" } with
    | error me =>
      rw [hm] at h
      cases h
      exact ⟨me, rfl⟩
    | ok r =>
      rw [hm] at h
      exact ih r.2 e h

/-! ## Claim C2 — per-line computation and accumulation -/

/-- C2: for each line, `line_subtotal = unit_price * quantity`,
`line_discount = line_subtotal * discount_percent / 100`,
`line_after_discount = line_subtotal - line_discount`,
`line_tax = line_after_discount * tax_rate`,
`line_total = line_after_discount + line_tax`; the sale accumulates
`subtotal += line_after_discount` and `total_tax += line_tax`; and a sale of
1 unit at price 100, tax rate 0.19, item discount 10%, no global discount
yields subtotal 90.00, tax 17.10, total 107.10. -/
theorem sale_line_computation (p : Product) (it : SaleItemInput)
    (lines : List (Product × SaleItemInput)) (paid : ℚ) :
    lineSubtotal p it = p.salePrice * (it.quantity : ℚ)
    ∧ lineDiscount p it = lineSubtotal p it * itemDiscountPercent it / 100
    ∧ lineAfterDiscount p it = lineSubtotal p it - lineDiscount p it
    ∧ lineTax p it = lineAfterDiscount p it * p.taxRate
    ∧ lineTotal p it = lineAfterDiscount p it + lineTax p it
    ∧ saleSubtotal0 lines =
        (lines.map (fun pi => lineAfterDiscount pi.1 pi.2)).sum
    ∧ saleTotalTax0 lines = (lines.map (fun pi => lineTax pi.1 pi.2)).sum
    ∧ (saleTotals lines none paid).subtotal = saleSubtotal0 lines
    ∧ (saleTotals lines none paid).totalTax = saleTotalTax0 lines
    ∧ (saleService.createSale dbSale (saleInputTaxDisc 110) "u1" "s1"
        (.ok ())).toOption.map
          (fun res => (res.1.subtotal, res.1.taxAmount, res.1.total)) =
        some (90, 171 / 10, 1071 / 10) := by
  refine ⟨rfl, rfl, rfl, rfl, rfl, ?_, ?_, rfl, rfl, ?_⟩
  · rw [saleSubtotal0, foldl_add_eq_sum]
    simp
  · rw [saleTotalTax0, foldl_add_eq_sum]
    simp
  · rw [createSale_eq_core]
    norm_num [saleService.createSaleCore, productsLengthCheck,
      fetchedProducts, validateSaleItems, saleLines, negativeStockAllowed,
      sequenceService.getNextValue, sequenceService.seqLookup,
      sequenceService.RECEIPT, saleTotals, applyGlobalDiscount, saleSubtotal0,
      saleTotalTax0, lineSubtotal, lineDiscount, lineAfterDiscount, lineTax,
      lineTotal, itemDiscountPercent, mkSaleItem, roundDp, saleMovements,
      inventoryService.createMovement, quantityChange, dbSale, prodA, prodB,
      saleInputTaxDisc, List.find?, List.filter]
    simp [Except.toOption]

/-! ## Claim C3 — total, payment check, change -/

/-- C3: inside the transaction `total = subtotal + total_tax` and
`change = max 0 (amount_paid - total)`; once the pricing stage is reached the
call fails with `InsufficientPayment` exactly when `amount_paid < total`; and
on the concrete scenario (total 107.10) paying 110 yields change 2.90,
paying 107.10 yields change 0, and paying 100 fails. -/
theorem sale_payment_check (db : DB) (input : CreateSaleInput)
    (userId newSaleId : String) (r : Except String Unit)
    (lines : List (Product × SaleItemInput))
    (h1 : input.items.isEmpty = false)
    (h2 : productsLengthCheck db input.items = true)
    (h3 : validateSaleItems (fetchedProducts db input.items) db.storeConfig
      input.items = .ok ())
    (h4 : saleLines (fetchedProducts db input.items) input.items = some lines) :
    ((saleTotals lines input.globalDiscountPercent input.amountPaid).total =
        (saleTotals lines input.globalDiscountPercent input.amountPaid).subtotal
        + (saleTotals lines input.globalDiscountPercent input.amountPaid).totalTax)
    ∧ ((saleTotals lines input.globalDiscountPercent input.amountPaid).changeAmount =
        max 0 (input.amountPaid -
          (saleTotals lines input.globalDiscountPercent input.amountPaid).total))
    ∧ (∀ tq, saleService.createSale db input userId newSaleId r =
          .error (.insufficientPayment tq)
        ↔ (tq = (saleTotals lines input.globalDiscountPercent
            input.amountPaid).total ∧ input.amountPaid < tq))
    ∧ ((saleService.createSale dbSale (saleInputTaxDisc 110) "u1" "s1"
          (.ok ())).toOption.map (fun res => res.1.changeAmount) =
        some (29 / 10))
    ∧ ((saleService.createSale dbSale (saleInputTaxDisc (1071 / 10)) "u1" "s1"
          (.ok ())).toOption.map (fun res => res.1.changeAmount) = some 0)
    ∧ (saleService.createSale dbSale (saleInputTaxDisc 100) "u1" "s1"
        (.ok ()) = .error (.insufficientPayment (1071 / 10))) := by
  refine ⟨rfl, ?_, ?_, ?_, ?_, ?_⟩
  · rw [saleTotals]
    simp only
    apply ite_pos_sub_eq_max
  · intro tq
    rw [createSale_eq_core, saleService.createSaleCore]
    simp only [h1, Bool.false_eq_true, if_false, h2, not_true,
      Bool.not_eq_true]
    rw [h3]
    simp only
    rw [h4]
    simp only
    by_cases hp : input.amountPaid <
        (saleTotals lines input.globalDiscountPercent input.amountPaid).total
    · rw [if_pos hp]
      constructor
      · intro he
        have := (SaleError.insufficientPayment.injEq .. ▸
          (Except.error.injEq .. ▸ he))
        exact ⟨this.symm, this ▸ hp⟩
      · intro ⟨ht, _⟩
        rw [ht]
    · rw [if_neg hp]
      cases hm : saleMovements userId newSaleId
          { db with
            sequences := (sequenceService.getNextValue db.sequences
              sequenceService.RECEIPT).2
            sales := db.sales ++ [_] } input.items with
      | error e =>
        constructor
        · intro he
          obtain ⟨me, hme⟩ := saleMovements_error_form userId newSaleId
            input.items _ e hm
          rw [hme] at he
          cases Except.error.injEq .. ▸ he
        · intro ⟨ht, hlt⟩
          exact absurd (ht ▸ hlt) hp
      | ok db2 =>
        constructor
        · intro he
          cases he
        · intro ⟨ht, hlt⟩
          exact absurd (ht ▸ hlt) hp
  · rw [createSale_eq_core]
    norm_num [saleService.createSaleCore, productsLengthCheck,
      fetchedProducts, validateSaleItems, saleLines, negativeStockAllowed,
      sequenceService.getNextValue, sequenceService.seqLookup,
      sequenceService.RECEIPT, saleTotals, applyGlobalDiscount, saleSubtotal0,
      saleTotalTax0, lineSubtotal, lineDiscount, lineAfterDiscount, lineTax,
      lineTotal, itemDiscountPercent, mkSaleItem, roundDp, saleMovements,
      inventoryService.createMovement, quantityChange, dbSale, prodA, prodB,
      saleInputTaxDisc, List.find?, List.filter]
    simp [Except.toOption]
  · rw [createSale_eq_core]
    norm_num [saleService.createSaleCore, productsLengthCheck,
      fetchedProducts, validateSaleItems, saleLines, negativeStockAllowed,
      sequenceService.getNextValue, sequenceService.seqLookup,
      sequenceService.RECEIPT, saleTotals, applyGlobalDiscount, saleSubtotal0,
      saleTotalTax0, lineSubtotal, lineDiscount, lineAfterDiscount, lineTax,
      lineTotal, itemDiscountPercent, mkSaleItem, roundDp, saleMovements,
      inventoryService.createMovement, quantityChange, dbSale, prodA, prodB,
      saleInputTaxDisc, List.find?, List.filter]
    simp [Except.toOption]
  · rw [createSale_eq_core]
    norm_num [saleService.createSaleCore, productsLengthCheck,
      fetchedProducts, validateSaleItems, saleLines, negativeStockAllowed,
      sequenceService.getNextValue, sequenceService.seqLookup,
      sequenceService.RECEIPT, saleTotals, applyGlobalDiscount, saleSubtotal0,
      saleTotalTax0, lineSubtotal, lineDiscount, lineAfterDiscount, lineTax,
      lineTotal, itemDiscountPercent, mkSaleItem, roundDp, saleMovements,
      inventoryService.createMovement, quantityChange, dbSale, prodA, prodB,
      saleInputTaxDisc, List.find?, List.filter]
    simp

/-- Witness for C3 at the concrete scenario: the sale with one line of
`prodA` (price 100, item discount 10%), paying 110 and paying 100. -/
theorem sale_payment_check_witness :
    ((saleTotals [(prodA, { productId := "pA", quantity := 1, discountPercent := some 10 })]
        (saleInputTaxDisc 110).globalDiscountPercent
        (saleInputTaxDisc 110).amountPaid).total =
      (saleTotals [(prodA, { productId := "pA", quantity := 1, discountPercent := some 10 })]
        (saleInputTaxDisc 110).globalDiscountPercent
        (saleInputTaxDisc 110).amountPaid).subtotal +
      (saleTotals [(prodA, { productId := "pA", quantity := 1, discountPercent := some 10 })]
        (saleInputTaxDisc 110).globalDiscountPercent
        (saleInputTaxDisc 110).amountPaid).totalTax)
    ∧ (saleService.createSale dbSale (saleInputTaxDisc 100) "u1" "s1"
        (.ok ()) = .error (.insufficientPayment (1071 / 10))) := by
  have h := sale_payment_check dbSale (saleInputTaxDisc 110) "u1" "s1"
    (.ok ()) [(prodA, { productId := "pA", quantity := 1, discountPercent := some 10 })]
    rfl rfl rfl rfl
  exact ⟨h.1, h.2.2.2.2.2⟩

/-! ## Claim C1 — global discount tax recomputation -/

/-- C1: with a positive global discount percent the engine computes
`global_discount = subtotal * percent / 100`, subtracts it from the subtotal,
and recomputes the tax total from scratch: each line's proportional share
`global_discount * line_subtotal_after_item_discount / pre-discount-subtotal`
is taken off the line's stored after-item-discount subtotal and the adjusted
value is taxed at the line's stored tax rate.  On two lines with
after-item-discount subtotals 100 and 300, tax rates 0.19 and 0.10 and a 10%
global discount the stored tax is 90·0.19 + 270·0.10 = 44.10. -/
theorem sale_global_discount_tax (gdp subtotal0 totalTax0 : ℚ)
    (saleItems : List SaleItem) (hgdp : 0 < gdp) :
    (applyGlobalDiscount (some gdp) subtotal0 totalTax0 saleItems).2.2 =
        subtotal0 * gdp / 100
    ∧ (applyGlobalDiscount (some gdp) subtotal0 totalTax0 saleItems).1 =
        subtotal0 - subtotal0 * gdp / 100
    ∧ (applyGlobalDiscount (some gdp) subtotal0 totalTax0 saleItems).2.1 =
        (saleItems.map (fun item =>
          (item.subtotal - (subtotal0 * gdp / 100) * item.subtotal / subtotal0)
            * item.taxRate)).sum
    ∧ (saleService.createSale dbSale saleInputGlobal "u1" "s1"
        (.ok ())).toOption.map
          (fun res => (res.1.discountAmount, res.1.subtotal, res.1.taxAmount)) =
        some (40, 360, 441 / 10) := by
  refine ⟨?_, ?_, ?_, ?_⟩
  · simp only [applyGlobalDiscount]
    rw [if_pos hgdp]
  · simp only [applyGlobalDiscount]
    rw [if_pos hgdp]
  · simp only [applyGlobalDiscount]
    rw [if_pos hgdp]
    simp only
    rw [foldl_add_eq_sum, zero_add]
    refine congrArg List.sum (List.map_congr_left ?_)
    intro item _
    rw [sub_add_cancel]
  · rw [createSale_eq_core]
    simp [saleService.createSaleCore, productsLengthCheck,
      fetchedProducts, validateSaleItems, saleLines, negativeStockAllowed,
      sequenceService.getNextValue, sequenceService.seqLookup,
      sequenceService.RECEIPT, saleTotals, applyGlobalDiscount, saleSubtotal0,
      saleTotalTax0, lineSubtotal, lineDiscount, lineAfterDiscount, lineTax,
      lineTotal, itemDiscountPercent, mkSaleItem, roundDp, saleMovements,
      inventoryService.createMovement, quantityChange, dbSale, prodA, prodB,
      saleInputGlobal, List.find?, List.filter, Except.toOption]
    norm_num

/-- Witness for C1: global discount 10% over pre-discount subtotal 400 with
the two stored example lines. -/
theorem sale_global_discount_tax_witness :
    (applyGlobalDiscount (some 10) 400 49 [exItemA, exItemB]).2.2 =
        400 * 10 / 100
    ∧ (applyGlobalDiscount (some 10) 400 49 [exItemA, exItemB]).1 =
        400 - 400 * 10 / 100
    ∧ (applyGlobalDiscount (some 10) 400 49 [exItemA, exItemB]).2.1 =
        ([exItemA, exItemB].map (fun item =>
          (item.subtotal - (400 * 10 / 100) * item.subtotal / 400)
            * item.taxRate)).sum
    ∧ (saleService.createSale dbSale saleInputGlobal "u1" "s1"
        (.ok ())).toOption.map
          (fun res => (res.1.discountAmount, res.1.subtotal, res.1.taxAmount)) =
        some (40, 360, 441 / 10) :=
  sale_global_discount_tax 10 400 49 [exItemA, exItemB] (by norm_num)

/-! ## Void lemmas -/

/-- Anatomy of a successful void-movement loop: sales untouched, and the
appended ledger rows are VOID rows of the items' absolute quantities. -/
theorem voidMovements_ok_spec (userId saleId : String) :
    ∀ (items : List SaleItem) (db db2 : DB),
      voidMovements userId saleId db items = .ok db2 →
      db2.sales = db.sales
      ∧ ∃ suffix, db2.movements = db.movements ++ suffix
          ∧ suffix.map (fun m => (m.type, m.quantity)) =
              items.map (fun it => (MovementType.VOID, (it.quantity.natAbs : Int))) := by
  intro items
  induction items with
  | nil =>
    intro db db2 h
    rw [voidMovements] at h
    cases h
    exact ⟨rfl, [], by simp, rfl⟩
  | cons it rest ih =>
    intro db db2 h
    rw [voidMovements] at h
    cases hm : inventoryService.createMovement db
      { productId := it.productId, userId := userId, type := .VOID,
        quantity := it.quantity, unitCost := none, reason := some "void",
        referenceId := some saleId, referenceType := some "void" } with
    | error e => rw [hm] at h; cases h
    | ok r =>
      rw [hm] at h
      obtain ⟨m, db1⟩ := r
      obtain ⟨hsales, suf, hsuf, hproj⟩ := ih db1 db2 h
      obtain ⟨p0, _, _, htype, hqty, _, _, hsales1, _, _, _, hmv, _⟩ :=
        createMovement_ok_spec hm
      refine ⟨hsales.trans hsales1, [m] ++ suf, ?_, ?_⟩
      · rw [hsuf, hmv, List.append_assoc]
      · simp only [List.map_cons, List.map_append, List.map_cons, List.map_nil,
          List.singleton_append]
        rw [hproj] at *
        simp [htype, hqty, quantityChange]

/-- Anatomy of a successful `voidSaleCore`. -/
theorem voidSaleCore_ok_spec {db : DB} {saleId reason userId : String}
    {s : Sale} {db' : DB}
    (h : saleService.voidSaleCore db saleId reason userId = .ok (s, db')) :
    blankString reason = false
    ∧ ∃ sale, db.sales.find? (fun x => x.id == saleId) = some sale
      ∧ sale.status ≠ SaleStatus.VOIDED
      ∧ s = voidedSaleRecord sale reason userId
      ∧ voidMovements userId saleId
          { db with
            sales := db.sales.map
              (fun x => if x.id == saleId then
                voidedSaleRecord x reason userId else x) }
          sale.items = .ok db' := by
  rw [saleService.voidSaleCore] at h
  by_cases hb : blankString reason = true
  · rw [if_pos hb] at h; cases h
  · rw [if_neg hb] at h
    refine ⟨by simpa using hb, ?_⟩
    cases hf : db.sales.find? (fun x => x.id == saleId) with
    | none => rw [hf] at h; cases h
    | some sale =>
      rw [hf] at h
      simp only at h
      by_cases hv : sale.status = SaleStatus.VOIDED
      · rw [if_pos hv] at h; cases h
      · rw [if_neg hv] at h
        cases hm : voidMovements userId saleId
            { db with
              sales := db.sales.map
                (fun x => if x.id == saleId then
                  voidedSaleRecord x reason userId else x) }
            sale.items with
        | error e => rw [hm] at h; cases h
        | ok db2 =>
          rw [hm] at h
          obtain ⟨hm1, hm2⟩ := Prod.mk.injEq .. ▸ (Except.ok.injEq .. ▸ h)
          exact ⟨sale, rfl, hv, hm1.symm, hm2 ▸ hm⟩

/-! ## Claim C7 — idempotent void, full sale-time quantities -/

/-- C7: a successful void marks the sale VOIDED, so voiding the same sale a
second time is rejected with an error (recording no second VOID movement);
and the movements recorded by the successful void are one VOID row per sale
item of exactly the quantity debited at sale time (`item.quantity`), not the
currently-remaining quantity.  Concretely, voiding a sale whose only item
has quantity 5 and returnedQty 2 records a single VOID movement of 5. -/
theorem void_sale_idempotent_full_quantity (db : DB)
    (saleId reason reason2 userId : String) (ap ap2 : Except String Unit)
    (sale s : Sale) (db' : DB)
    (hfind : db.sales.find? (fun x => x.id == saleId) = some sale)
    (hq : ∀ it ∈ sale.items, 0 ≤ it.quantity)
    (hr2 : blankString reason2 = false)
    (hok : saleService.voidSale db saleId reason userId ap = .ok (s, db')) :
    saleService.voidSale db' saleId reason2 userId ap2 = .error .alreadyVoided
    ∧ (db'.movements.drop db.movements.length).map
        (fun m => (m.type, m.quantity))
        = sale.items.map (fun it => (MovementType.VOID, it.quantity))
    ∧ (saleService.voidSale dbVoid "s2" "because" "u1" (.ok ())).toOption.map
        (fun res => res.2.movements.map (fun m => (m.type, m.quantity)))
        = some [(MovementType.VOID, 5)] := by
  rw [voidSale_eq_core] at hok
  obtain ⟨hbr, sale0, hf0, hnv, hs, hvm⟩ := voidSaleCore_ok_spec hok
  have hsale : sale0 = sale := by
    rw [hf0] at hfind
    exact Option.some.inj hfind
  subst hsale
  obtain ⟨hsales2, suffix, hsuf, hproj⟩ :=
    voidMovements_ok_spec userId saleId sale0.items _ db' hvm
  have hid := List.find?_some hf0
  refine ⟨?_, ?_, ?_⟩
  · rw [voidSale_eq_core, saleService.voidSaleCore,
      if_neg (by simp [hr2])]
    have hfind' : db'.sales.find? (fun x => x.id == saleId) =
        some (voidedSaleRecord sale0 reason userId) := by
      rw [hsales2]
      simp only
      rw [find?_map_pred _ _ (by
        intro a
        by_cases hb : (a.id == saleId) = true <;>
          simp [voidedSaleRecord, hb]), hf0]
      simp only [Option.map_some']
      rw [if_pos hid]
    rw [hfind']
    simp [voidedSaleRecord]
  · have hmv1 : db'.movements = db.movements ++ suffix := hsuf
    rw [hmv1, List.drop_left, hproj]
    apply List.map_congr_left
    intro it hit
    rw [Int.natAbs_of_nonneg (hq it hit)]
  · rw [voidSale_eq_core, saleService.voidSaleCore, if_neg (by decide)]
    simp [dbVoid, dbRet, exSaleV, exSaleItemV, exSaleR, exSaleItemR, prodA,
      voidedSaleRecord, voidMovements, inventoryService.createMovement,
      quantityChange, negativeStockAllowed, List.find?, Except.toOption]

/-- Witness for C7: the concrete void scenario (item quantity 5, returned
quantity 2), showing the second void is rejected and the VOID movement holds
quantity 5. -/
theorem void_sale_idempotent_full_quantity_witness :
    saleService.voidSale dbVoidAfter "s2" "because2" "u1" (.ok ()) =
      .error .alreadyVoided
    ∧ (dbVoidAfter.movements.drop dbVoid.movements.length).map
        (fun m => (m.type, m.quantity))
        = exSaleV.items.map (fun it => (MovementType.VOID, it.quantity)) := by
  have h := void_sale_idempotent_full_quantity dbVoid "s2" "because"
    "because2" "u1" (.ok ()) (.ok ()) exSaleV exSaleVoided dbVoidAfter rfl
    (by decide) (by decide) (by rfl)
  exact ⟨h.1, h.2.1⟩

/-! ## Return lemmas -/

/-- `bumpReturnedQty` by 0 is the identity. -/
theorem bumpReturnedQty_zero (si : SaleItem) : bumpReturnedQty si 0 = si := by
  cases si
  simp [bumpReturnedQty]

/-- With no fallback updates, `reqQtyAux` is the requested quantity. -/
theorem reqQtyAux_zero (reqs : List ReturnItemInput) (pid : String) :
    reqQtyAux reqs (fun _ => 0) pid = requestedQty reqs pid := by
  rw [reqQtyAux, requestedQty]
  cases h : reqs.find? (fun ri => ri.productId == pid) <;> simp

/-- Processing the head request first and then the rest gives the same final
applied quantities, provided the head's product is not requested again. -/
theorem reqQtyAux_cons (ri : ReturnItemInput) (rest : List ReturnItemInput)
    (g : String → Int)
    (hnotin : ∀ r ∈ rest, r.productId ≠ ri.productId) (pid : String) :
    reqQtyAux rest
      (fun p => if p = ri.productId then ri.quantity else g p) pid =
      reqQtyAux (ri :: rest) g pid := by
  rw [reqQtyAux, reqQtyAux, List.find?]
  by_cases hb : (ri.productId == pid) = true
  · have hpid : ri.productId = pid := by simpa using hb
    rw [hb]
    simp only
    cases hr : rest.find? (fun r => r.productId == pid) with
    | none => simp [← hpid]
    | some r' =>
      have hmem := List.mem_of_find?_eq_some hr
      have : r'.productId = pid := by simpa using List.find?_some hr
      exact absurd (this.trans hpid.symm) (hnotin r' hmem)
  · rw [Bool.not_eq_true] at hb
    rw [hb]
    simp only
    cases hr : rest.find? (fun r => r.productId == pid) with
    | none =>
      simp only
      rw [if_neg (by
        intro hcon
        rw [hcon] at hb
        simp at hb)]
    | some r' => simp

/-- `validateReturnItems` succeeds exactly when every requested item matches
a sale item within the remaining returnable quantity. -/
theorem validateReturnItems_ok_spec :
    ∀ (reqs : List ReturnItemInput) (items : List SaleItem),
      validateReturnItems items reqs = .ok () →
      ∀ ri ∈ reqs, ∃ si, findSaleItem items ri.productId = some si
        ∧ ri.quantity ≤ si.quantity - si.returnedQty := by
  intro reqs
  induction reqs with
  | nil => intro items h ri hri; cases hri
  | cons r rest ih =>
    intro items h ri hri
    rw [validateReturnItems] at h
    cases hf : findSaleItem items r.productId with
    | none => rw [hf] at h; cases h
    | some si =>
      rw [hf] at h
      simp only at h
      by_cases hq : si.quantity - si.returnedQty < r.quantity
      · rw [if_pos hq] at h; cases h
      · rw [if_neg hq] at h
        cases hri with
        | head => exact ⟨si, hf, by omega⟩
        | tail _ hmem => exact ih items h ri hmem

/-- Rows produced by the return loop: one per requested item, priced from
the snapshotted sale item. -/
theorem applyReturnUpdates_ok_recs (snapshot : List SaleItem)
    (saleId userId : String) :
    ∀ (reqs : List ReturnItemInput) (db db2 : DB) (recs : List ReturnItem),
      applyReturnUpdates snapshot saleId userId db reqs = .ok (db2, recs) →
      recs.map (fun rc => (rc.productId, rc.quantity, rc.unitPrice,
        rc.refundAmount)) =
        reqs.map (fun ri =>
          (ri.productId, ri.quantity,
            roundDp 2 (((findSaleItem snapshot ri.productId).map
              (fun si => si.unitPrice)).getD 0),
            roundDp 2 ((((findSaleItem snapshot ri.productId).map
              (fun si => si.unitPrice)).getD 0) * (ri.quantity : ℚ)))) := by
  intro reqs
  induction reqs with
  | nil =>
    intro db db2 recs h
    rw [applyReturnUpdates] at h
    cases h
    rfl
  | cons ri rest ih =>
    intro db db2 recs h
    rw [applyReturnUpdates] at h
    cases hf : findSaleItem snapshot ri.productId with
    | none => rw [hf] at h; cases h
    | some si =>
      rw [hf] at h
      simp only at h
      cases hm : inventoryService.createMovement
          (writeReturnedQty db saleId si.id (si.returnedQty + ri.quantity))
          { productId := ri.productId, userId := userId, type := .RETURN,
            quantity := ri.quantity, unitCost := none,
            reason := some "return", referenceId := some saleId,
            referenceType := some "return" } with
      | error e => rw [hm] at h; cases h
      | ok r =>
        simp only [hm] at h
        cases hrec : applyReturnUpdates snapshot saleId userId r.2 rest with
        | error e =>
          simp only [hrec] at h
          exact absurd h (by simp)
        | ok r2 =>
          simp only [hrec] at h
          obtain ⟨hdb, hrecs⟩ := Prod.mk.injEq .. ▸ (Except.ok.injEq .. ▸ h)
          subst hrecs
          simp only [List.map_cons, mkReturnItem, hf, Option.map_some',
            Option.getD_some]
          refine congrArg₂ _ rfl (ih r.2 db2 r2.2 ?_)
          rw [hrec, ← hdb]

/-- The sale row update performed by the return loop, relative to the
snapshot: each processed request overwrites its item's `returnedQty` with
the snapshot value plus the requested quantity. -/
theorem applyReturnUpdates_ok_sales (snapshot : List SaleItem)
    (saleId userId : String)
    (hids : (snapshot.map (fun si => si.id)).Nodup)
    (hpids : (snapshot.map (fun si => si.productId)).Nodup) :
    ∀ (reqs : List ReturnItemInput) (g : String → Int) (db db2 : DB)
      (recs : List ReturnItem) (scur : Sale),
      (reqs.map (fun ri => ri.productId)).Nodup →
      db.sales.find? (fun x => x.id == saleId) = some scur →
      scur.items = snapshot.map
        (fun si => bumpReturnedQty si (g si.productId)) →
      applyReturnUpdates snapshot saleId userId db reqs = .ok (db2, recs) →
      db2.sales.find? (fun x => x.id == saleId) =
        some { scur with
               items := snapshot.map
                 (fun si => bumpReturnedQty si
                   (reqQtyAux reqs g si.productId)) } := by
  intro reqs
  induction reqs with
  | nil =>
    intro g db db2 recs scur _ hfind hitems h
    rw [applyReturnUpdates] at h
    cases h
    rw [hfind]
    congr 1
    have hmap : snapshot.map
        (fun si => bumpReturnedQty si (reqQtyAux [] g si.productId)) =
        scur.items := by
      rw [hitems]
      apply List.map_congr_left
      intro si _
      simp [reqQtyAux]
    rw [hmap]
  | cons ri rest ih =>
    intro g db db2 recs scur hreq hfind hitems h
    rw [applyReturnUpdates] at h
    cases hf : findSaleItem snapshot ri.productId with
    | none => rw [hf] at h; cases h
    | some si0 =>
      rw [hf] at h
      simp only at h
      have hsi0mem : si0 ∈ snapshot := List.mem_of_find?_eq_some hf
      have hsi0pid : si0.productId = ri.productId := by
        simpa using List.find?_some hf
      have hscurid := List.find?_some hfind
      -- the written sale row
      have hfind1 : (writeReturnedQty db saleId si0.id
          (si0.returnedQty + ri.quantity)).sales.find?
            (fun x => x.id == saleId) =
          some { scur with
                 items := scur.items.map
                   (fun si => if si.id == si0.id then
                     { si with returnedQty := si0.returnedQty + ri.quantity }
                     else si) } := by
        rw [writeReturnedQty]
        simp only
        rw [find?_map_pred _ _ (by
          intro a
          by_cases hb : (a.id == saleId) = true <;> simp [hb]), hfind]
        simp only [Option.map_some']
        rw [if_pos hscurid]
      have hitems1 : scur.items.map
          (fun si => if si.id == si0.id then
            { si with returnedQty := si0.returnedQty + ri.quantity }
            else si) = snapshot.map (fun si => bumpReturnedQty si
              ((fun p => if p = ri.productId then ri.quantity else g p)
                si.productId)) := by
        rw [hitems, List.map_map]
        apply List.map_congr_left
        intro si hsi
        simp only [Function.comp]
        by_cases hb : si.id = si0.id
        · have hsieq : si = si0 :=
            List.inj_on_of_nodup_map hids hsi hsi0mem hb
          subst hsieq
          rw [if_pos (by simp [bumpReturnedQty, hb])]
          simp [bumpReturnedQty, hsi0pid]
        · rw [if_neg (by simp [bumpReturnedQty, hb])]
          have hpidne : si.productId ≠ ri.productId := by
            intro hcon
            exact hb (congrArg (fun x => x.id)
              (List.inj_on_of_nodup_map hpids hsi hsi0mem
                (hcon.trans hsi0pid.symm)))
          rw [if_neg hpidne]
      cases hm : inventoryService.createMovement
          (writeReturnedQty db saleId si0.id (si0.returnedQty + ri.quantity))
          { productId := ri.productId, userId := userId, type := .RETURN,
            quantity := ri.quantity, unitCost := none,
            reason := some "return", referenceId := some saleId,
            referenceType := some "return" } with
      | error e => rw [hm] at h; cases h
      | ok r =>
        simp only [hm] at h
        cases hrec : applyReturnUpdates snapshot saleId userId r.2 rest with
        | error e =>
          simp only [hrec] at h
          exact absurd h (by simp)
        | ok r2 =>
          simp only [hrec] at h
          obtain ⟨hdb, hrecs⟩ := Prod.mk.injEq .. ▸ (Except.ok.injEq .. ▸ h)
          obtain ⟨_, _, _, _, _, _, _, hsales1, _, _, _, _, _⟩ :=
            createMovement_ok_spec hm
          have hfind2 : r.2.sales.find? (fun x => x.id == saleId) =
              some { scur with
                     items := snapshot.map
                       (fun si => bumpReturnedQty si
                         ((fun p => if p = ri.productId then ri.quantity
                           else g p) si.productId)) } := by
            rw [hsales1, hfind1, hitems1]
          have hih := ih (fun p => if p = ri.productId then ri.quantity else g p)
            r.2 r2.1 r2.2 { scur with
                            items := snapshot.map
                              (fun si => bumpReturnedQty si
                                ((fun p => if p = ri.productId then ri.quantity
                                  else g p) si.productId)) }
            (by
              have := hreq
              simp only [List.map_cons, List.nodup_cons] at this
              exact this.2)
            hfind2 rfl hrec
          rw [hdb] at hih
          have hnotin : ∀ r' ∈ rest, r'.productId ≠ ri.productId := by
            intro r' hmem hcon
            have := hreq
            simp only [List.map_cons, List.nodup_cons] at this
            exact this.1 (hcon ▸ List.mem_map_of_mem (fun x => x.productId) hmem)
          calc db2.sales.find? (fun x => x.id == saleId)
              = some { scur with
                       items := snapshot.map
                         (fun si => bumpReturnedQty si (reqQtyAux rest
                           (fun p => if p = ri.productId then ri.quantity
                             else g p) si.productId)) } := hih
            _ = some { scur with
                       items := snapshot.map
                         (fun si => bumpReturnedQty si
                           (reqQtyAux (ri :: rest) g si.productId)) } := by
                congr 1
                refine congrArg _ (List.map_congr_left ?_)
                intro si _
                rw [reqQtyAux_cons ri rest g hnotin]

/-- Anatomy of a successful `createReturnCore`. -/
theorem createReturnCore_ok_spec {db : DB} {saleId : String}
    {reqItems : List ReturnItemInput} {reason userId newReturnId : String}
    {ret : ReturnRec} {db' : DB}
    (h : saleService.createReturnCore db saleId reqItems reason userId
      newReturnId = .ok (ret, db')) :
    blankString reason = false
    ∧ ∃ sale, db.sales.find? (fun x => x.id == saleId) = some sale
      ∧ sale.status ≠ SaleStatus.VOIDED
      ∧ validateReturnItems sale.items reqItems = .ok ()
      ∧ ∃ db2 recs,
          applyReturnUpdates sale.items saleId userId
            { db with sequences := (sequenceService.getNextValue db.sequences
                sequenceService.RETURNSEQ).2 } reqItems = .ok (db2, recs)
          ∧ ret = { id := newReturnId
                    returnNumber := (sequenceService.getNextValue db.sequences
                      sequenceService.RETURNSEQ).1
                    saleId := saleId
                    userId := userId
                    reason := reason
                    totalRefund := roundDp 2
                      (returnRefundTotal sale.items reqItems)
                    items := recs }
          ∧ db'.sales = (if allItemsReturned sale.items reqItems then
                setSaleStatus db2 saleId SaleStatus.VOIDED
              else setSaleStatus db2 saleId SaleStatus.PARTIAL_RETURN).sales
          ∧ db'.returnRecords = db2.returnRecords ++ [ret] := by
  rw [saleService.createReturnCore] at h
  by_cases hb : blankString reason = true
  · rw [if_pos hb] at h; cases h
  · rw [if_neg hb] at h
    refine ⟨by simpa using hb, ?_⟩
    cases hf : db.sales.find? (fun x => x.id == saleId) with
    | none => rw [hf] at h; cases h
    | some sale =>
      rw [hf] at h
      simp only at h
      by_cases hv : sale.status = SaleStatus.VOIDED
      · rw [if_pos hv] at h; cases h
      · rw [if_neg hv] at h
        cases hval : validateReturnItems sale.items reqItems with
        | error e => rw [hval] at h; cases h
        | ok u =>
          cases u
          simp only [hval] at h
          cases hap : applyReturnUpdates sale.items saleId userId
              { db with sequences := (sequenceService.getNextValue db.sequences
                  sequenceService.RETURNSEQ).2 } reqItems with
          | error e => simp only [hap] at h; exact absurd h (by simp)
          | ok r =>
            simp only [hap] at h
            obtain ⟨hret, hdb⟩ := Prod.mk.injEq .. ▸ (Except.ok.injEq .. ▸ h)
            refine ⟨sale, rfl, hv, hval, r.1, r.2, by rw [hap], hret.symm, ?_, ?_⟩
            · rw [← hdb]
            · rw [← hdb, ← hret]
              by_cases hall : allItemsReturned sale.items reqItems = true
              · rw [if_pos hall]
                exact rfl
              · rw [if_neg hall]
                exact rfl

/-- Under the validation bound and the standing invariant
`returnedQty ≤ quantity`, the post-return quantity never exceeds the sale
quantity. -/
theorem returnedQty_bound (items : List SaleItem)
    (reqs : List ReturnItemInput)
    (hpids : (items.map (fun si => si.productId)).Nodup)
    (hinv : ∀ si ∈ items, si.returnedQty ≤ si.quantity)
    (hval : validateReturnItems items reqs = .ok ()) :
    ∀ si ∈ items, si.returnedQty + requestedQty reqs si.productId ≤
      si.quantity := by
  intro si hsi
  rw [requestedQty]
  cases hfr : reqs.find? (fun ri => ri.productId == si.productId) with
  | none =>
    simp only [Option.map_none', Option.getD_none]
    have := hinv si hsi
    omega
  | some ri =>
    simp only [Option.map_some', Option.getD_some]
    have hmem := List.mem_of_find?_eq_some hfr
    have hripid : ri.productId = si.productId := by
      simpa using List.find?_some hfr
    obtain ⟨si', hfind', hbound⟩ := validateReturnItems_ok_spec reqs items
      hval ri hmem
    have hsi'mem : si' ∈ items := List.mem_of_find?_eq_some hfind'
    have hsi'pid : si'.productId = ri.productId := by
      simpa using List.find?_some hfind'
    have : si' = si := List.inj_on_of_nodup_map hpids hsi'mem hsi
      (hsi'pid.trans hripid)
    subst this
    omega

/-- `returnRefundTotal` as a sum of snapshot-priced refunds. -/
theorem returnRefundTotal_eq_sum (snapshot : List SaleItem)
    (reqs : List ReturnItemInput) :
    returnRefundTotal snapshot reqs =
      (reqs.map (fun ri =>
        ((findSaleItem snapshot ri.productId).map
          (fun si => si.unitPrice)).getD 0 * (ri.quantity : ℚ))).sum := by
  rw [returnRefundTotal, foldl_add_eq_sum, zero_add]
  refine congrArg List.sum (List.map_congr_left ?_)
  intro ri _
  cases h : findSaleItem snapshot ri.productId <;> simp [h]

/-- A sum of hundredths is a quantity of hundredths. -/
theorem sum_div_hundred {α : Type} (f : α → ℚ) :
    ∀ l : List α, (∀ x ∈ l, ∃ k : ℤ, f x = (k : ℚ) / 100) →
      ∃ K : ℤ, (l.map f).sum = (K : ℚ) / 100 := by
  intro l
  induction l with
  | nil => intro _; exact ⟨0, by simp⟩
  | cons a l ih =>
    intro h
    obtain ⟨k, hk⟩ := h a (List.mem_cons_self a l)
    obtain ⟨K, hK⟩ := ih (fun x hx => h x (List.mem_cons_of_mem a hx))
    refine ⟨k + K, ?_⟩
    rw [List.map_cons, List.sum_cons, hk, hK, div_add_div_same]
    push_cast
    ring

/-- Two-decimal rounding is exact on hundredths. -/
theorem roundDp_two_exact (k : ℤ) :
    roundDp 2 ((k : ℚ) / 100) = (k : ℚ) / 100 := by
  have h := roundDp_int_div 2 k
  norm_num at h
  exact h

/-! ## Claim C8 — refunds from the snapshotted unit price -/

/-- C8: every return row's refund is
`sale_item.unit_price * quantity`, priced from the unit price snapshotted on
the sale item (the persisted `createReturn` never reads the product's current
price), and the return's `totalRefund` is the sum of its rows' refund
amounts.  Concretely, returning 2 units whose snapshot price is 100 while the
product's current price is 999 refunds 200. -/
theorem return_refund_snapshot_price (db : DB) (saleId : String)
    (reqItems : List ReturnItemInput) (reason userId newReturnId : String)
    (ap : Except String Unit) (sale : Sale) (ret : ReturnRec)
    (hfind : db.sales.find? (fun x => x.id == saleId) = some sale)
    (h2dp : ∀ si ∈ sale.items, ∃ k : ℤ, si.unitPrice = (k : ℚ) / 100)
    (hok : (saleService.createReturn db saleId reqItems reason userId
      newReturnId ap).toOption.map (fun res => res.1) = some ret) :
    ret.items.map (fun rc => (rc.productId, rc.quantity, rc.unitPrice,
        rc.refundAmount))
      = reqItems.map (fun ri =>
          (ri.productId, ri.quantity,
            roundDp 2 (((findSaleItem sale.items ri.productId).map
              (fun si => si.unitPrice)).getD 0),
            roundDp 2 ((((findSaleItem sale.items ri.productId).map
              (fun si => si.unitPrice)).getD 0) * (ri.quantity : ℚ))))
    ∧ ret.totalRefund = roundDp 2 (returnRefundTotal sale.items reqItems)
    ∧ returnRefundTotal sale.items reqItems =
        (reqItems.map (fun ri =>
          ((findSaleItem sale.items ri.productId).map
            (fun si => si.unitPrice)).getD 0 * (ri.quantity : ℚ))).sum
    ∧ ret.totalRefund = (ret.items.map (fun rc => rc.refundAmount)).sum
    ∧ ((saleService.createReturn dbRet "s1" [{ productId := "pA", quantity := 2 }]
        "defect" "u1" "r1" (.ok ())).toOption.map
          (fun res => (res.1.totalRefund,
            res.1.items.map (fun rc => rc.refundAmount))) =
        some (200, [200])) := by
  have hconc : (saleService.createReturn dbRet "s1"
      [{ productId := "pA", quantity := 2 }]
      "defect" "u1" "r1" (.ok ())).toOption.map
        (fun res => (res.1.totalRefund,
          res.1.items.map (fun rc => rc.refundAmount))) =
      some (200, [200]) := by
    rw [createReturn_eq_core]
    simp [saleService.createReturnCore, validateReturnItems, findSaleItem,
      applyReturnUpdates, writeReturnedQty, mkReturnItem, returnRefundTotal,
      allItemsReturned, requestedQty, setSaleStatus, roundDp,
      sequenceService.getNextValue, sequenceService.seqLookup,
      sequenceService.RETURNSEQ, inventoryService.createMovement,
      quantityChange, negativeStockAllowed, dbRet, exSaleR, exSaleItemR,
      prodA, blankString, List.find?, Except.toOption]
    norm_num
  cases hcr : saleService.createReturn db saleId reqItems reason userId
      newReturnId ap with
  | error e => rw [hcr] at hok; cases hok
  | ok res =>
    rw [hcr] at hok
    obtain ⟨ret0, db'⟩ := res
    simp only [Except.toOption, Option.map_some', Option.some.injEq] at hok
    have hcore : saleService.createReturnCore db saleId reqItems reason userId
        newReturnId = .ok (ret0, db') := by
      rw [← createReturn_eq_core db saleId reqItems reason userId newReturnId ap]
      exact hcr
    obtain ⟨hbr, sale0, hf0, hnv, hval, db2, recs, hap, hret, hdbs, hdbr⟩ :=
      createReturnCore_ok_spec hcore
    have hsale : sale0 = sale := by
      rw [hf0] at hfind
      exact Option.some.inj hfind
    subst hsale
    subst hok
    have hrecs := applyReturnUpdates_ok_recs sale0.items saleId userId
      reqItems _ db2 recs hap
    have hitems : ret0.items = recs := by rw [hret]
    have htot : ret0.totalRefund =
        roundDp 2 (returnRefundTotal sale0.items reqItems) := by rw [hret]
    have hsum := returnRefundTotal_eq_sum sale0.items reqItems
    have hterm : ∀ ri ∈ reqItems, ∃ k : ℤ,
        ((findSaleItem sale0.items ri.productId).map
          (fun si => si.unitPrice)).getD 0 * (ri.quantity : ℚ) =
          (k : ℚ) / 100 := by
      intro ri _
      cases hf : findSaleItem sale0.items ri.productId with
      | none => exact ⟨0, by simp⟩
      | some si =>
        obtain ⟨k, hk⟩ := h2dp si (List.mem_of_find?_eq_some hf)
        refine ⟨k * ri.quantity, ?_⟩
        simp only [Option.map_some', Option.getD_some, hk]
        push_cast
        ring
    obtain ⟨K, hK⟩ := sum_div_hundred _ reqItems hterm
    refine ⟨by rw [hitems, hrecs], htot, hsum, ?_, hconc⟩
    have hrefunds : ret0.items.map (fun rc => rc.refundAmount) =
        reqItems.map (fun ri => roundDp 2
          ((((findSaleItem sale0.items ri.productId).map
            (fun si => si.unitPrice)).getD 0) * (ri.quantity : ℚ))) := by
      have hproj := congrArg (List.map (fun t :
        String × Int × ℚ × ℚ => t.2.2.2)) (hitems ▸ hrecs)
      simpa [List.map_map, Function.comp] using hproj
    rw [htot, hsum, hK, roundDp_two_exact, hrefunds]
    have hmap : reqItems.map (fun ri => roundDp 2
        ((((findSaleItem sale0.items ri.productId).map
          (fun si => si.unitPrice)).getD 0) * (ri.quantity : ℚ))) =
        reqItems.map (fun ri =>
          (((findSaleItem sale0.items ri.productId).map
            (fun si => si.unitPrice)).getD 0) * (ri.quantity : ℚ)) := by
      apply List.map_congr_left
      intro ri hri
      obtain ⟨k, hk⟩ := hterm ri hri
      rw [hk, roundDp_two_exact]
    rw [hmap, hK]

/-! ## Claim C6 — return validation, returnedQty update, status -/

/-- C6: a requested product absent from the sale fails with `ItemNotInSale`
and a requested quantity above `quantity - returnedQty` fails with
`ExcessiveReturnQuantity` (shown for the offending head request, and any
absent product prevents success); on success every sale item's `returnedQty`
grows by its requested quantity and the sale becomes VOIDED exactly when
every item is then fully returned, else PARTIAL_RETURN.  Concretely, with
quantity 5 and returnedQty 3, requesting 3 fails, requesting 2 succeeds with
returnedQty 5 and, the sale having no other item, status VOIDED. -/
theorem return_validation_update_status (db : DB) (saleId : String)
    (reqItems : List ReturnItemInput) (reason userId newReturnId : String)
    (ap : Except String Unit) (sale : Sale)
    (hfind : db.sales.find? (fun x => x.id == saleId) = some sale)
    (hreason : blankString reason = false)
    (hstatus : sale.status ≠ SaleStatus.VOIDED)
    (hids : (sale.items.map (fun si => si.id)).Nodup)
    (hpids : (sale.items.map (fun si => si.productId)).Nodup)
    (hreq : (reqItems.map (fun ri => ri.productId)).Nodup)
    (hinv : ∀ si ∈ sale.items, si.returnedQty ≤ si.quantity) :
    (∀ ri rest, reqItems = ri :: rest →
      findSaleItem sale.items ri.productId = none →
      saleService.createReturn db saleId reqItems reason userId newReturnId ap
        = .error (.itemNotInSale ri.productId))
    ∧ (∀ ri rest si, reqItems = ri :: rest →
        findSaleItem sale.items ri.productId = some si →
        si.quantity - si.returnedQty < ri.quantity →
        saleService.createReturn db saleId reqItems reason userId newReturnId
          ap = .error (.excessiveReturnQuantity (si.quantity - si.returnedQty)))
    ∧ ((∃ ri ∈ reqItems, findSaleItem sale.items ri.productId = none) →
        ∀ ret db', saleService.createReturn db saleId reqItems reason userId
          newReturnId ap ≠ .ok (ret, db'))
    ∧ (∀ ret db', saleService.createReturn db saleId reqItems reason userId
        newReturnId ap = .ok (ret, db') →
        ∃ saleAfter,
          db'.sales.find? (fun x => x.id == saleId) = some saleAfter
          ∧ saleAfter.items = sale.items.map (fun si =>
              bumpReturnedQty si (requestedQty reqItems si.productId))
          ∧ saleAfter.status = (if sale.items.all (fun si =>
                si.returnedQty + requestedQty reqItems si.productId
                  == si.quantity)
              then SaleStatus.VOIDED else SaleStatus.PARTIAL_RETURN))
    ∧ (saleService.createReturn dbRet "s1" [{ productId := "pA", quantity := 3 }]
        "defect" "u1" "r1" (.ok ()) = .error (.excessiveReturnQuantity 2))
    ∧ ((saleService.createReturn dbRet "s1"
          [{ productId := "pA", quantity := 2 }]
          "defect" "u1" "r1" (.ok ())).toOption.map
        (fun res => res.2.sales.map
          (fun s => (s.status, s.items.map (fun si => si.returnedQty)))) =
        some [(SaleStatus.VOIDED, [5])]) := by
  refine ⟨?_, ?_, ?_, ?_, ?_, ?_⟩
  · intro ri rest hreqeq hnone
    subst hreqeq
    rw [createReturn_eq_core, saleService.createReturnCore,
      if_neg (by simp [hreason])]
    simp only [hfind]
    rw [if_neg hstatus]
    have hv : validateReturnItems sale.items (ri :: rest) =
        .error (.itemNotInSale ri.productId) := by
      rw [validateReturnItems, hnone]
    simp only [hv]
  · intro ri rest si hreqeq hsome hlt
    subst hreqeq
    rw [createReturn_eq_core, saleService.createReturnCore,
      if_neg (by simp [hreason])]
    simp only [hfind]
    rw [if_neg hstatus]
    have hv : validateReturnItems sale.items (ri :: rest) =
        .error (.excessiveReturnQuantity (si.quantity - si.returnedQty)) := by
      rw [validateReturnItems, hsome]
      simp only
      rw [if_pos hlt]
    simp only [hv]
  · rintro ⟨ri, hmem, hnone⟩ ret db' hok
    rw [createReturn_eq_core] at hok
    obtain ⟨_, sale0, hf0, _, hval, _⟩ := createReturnCore_ok_spec hok
    have hsale : sale0 = sale := by
      rw [hf0] at hfind
      exact Option.some.inj hfind
    subst hsale
    obtain ⟨si, hsi, _⟩ := validateReturnItems_ok_spec reqItems sale0.items
      hval ri hmem
    rw [hnone] at hsi
    cases hsi
  · intro ret db' hok
    rw [createReturn_eq_core] at hok
    obtain ⟨_, sale0, hf0, _, hval, db2, recs, hap, hret, hdbs, hdbr⟩ :=
      createReturnCore_ok_spec hok
    have hsale : sale0 = sale := by
      rw [hf0] at hfind
      exact Option.some.inj hfind
    subst hsale
    have hinit : sale0.items = sale0.items.map
        (fun si => bumpReturnedQty si
          ((fun _ : String => (0 : Int)) si.productId)) := by
      refine ((List.map_id sale0.items).symm).trans ?_
      apply List.map_congr_left
      intro si _
      exact (bumpReturnedQty_zero si).symm
    have hfind0 : ({ db with sequences := (sequenceService.getNextValue
        db.sequences sequenceService.RETURNSEQ).2 } : DB).sales.find?
          (fun x => x.id == saleId) = some sale0 := hfind
    have hsales := applyReturnUpdates_ok_sales sale0.items saleId userId hids
      hpids reqItems (fun _ => 0) _ db2 recs sale0 hreq hfind0 hinit hap
    have hitems2 : sale0.items.map (fun si => bumpReturnedQty si
        (reqQtyAux reqItems (fun _ => 0) si.productId)) =
        sale0.items.map (fun si => bumpReturnedQty si
          (requestedQty reqItems si.productId)) := by
      apply List.map_congr_left
      intro si _
      rw [reqQtyAux_zero]
    rw [hitems2] at hsales
    have hbound := returnedQty_bound sale0.items reqItems hpids hinv hval
    have hcondiff : (allItemsReturned sale0.items reqItems = true) ↔
        (sale0.items.all (fun si => si.returnedQty +
          requestedQty reqItems si.productId == si.quantity) = true) := by
      rw [allItemsReturned, List.all_eq_true, List.all_eq_true]
      constructor
      · intro h si hsi
        have h1 := h si hsi
        have h2 := hbound si hsi
        simp only [decide_eq_true_eq] at h1
        simp only [beq_iff_eq]
        omega
      · intro h si hsi
        have h1 := h si hsi
        simp only [beq_iff_eq] at h1
        simp only [decide_eq_true_eq]
        omega
    set st := if sale0.items.all (fun si => si.returnedQty +
        requestedQty reqItems si.productId == si.quantity)
      then SaleStatus.VOIDED else SaleStatus.PARTIAL_RETURN with hst
    have hstatus2 : (if allItemsReturned sale0.items reqItems then
        setSaleStatus db2 saleId SaleStatus.VOIDED
      else setSaleStatus db2 saleId SaleStatus.PARTIAL_RETURN) =
        setSaleStatus db2 saleId st := by
      by_cases hall : allItemsReturned sale0.items reqItems = true
      · rw [if_pos hall, hst, if_pos (hcondiff.mp hall)]
      · rw [if_neg hall, hst,
          if_neg (fun hcon => hall (hcondiff.mpr hcon))]
    refine ⟨{ sale0 with
              items := sale0.items.map (fun si => bumpReturnedQty si
                (requestedQty reqItems si.productId))
              status := st }, ?_, rfl, rfl⟩
    rw [hdbs, hstatus2, setSaleStatus]
    simp only
    rw [find?_map_pred _ _ (by
      intro a
      by_cases hb : (a.id == saleId) = true <;> simp [hb]), hsales]
    simp only [Option.map_some']
    rw [if_pos (by
      have := List.find?_some hfind
      simpa using this)]
  · rw [createReturn_eq_core]
    simp [saleService.createReturnCore, validateReturnItems, findSaleItem,
      blankString, dbRet, exSaleR, exSaleItemR, List.find?]
  · rw [createReturn_eq_core]
    simp [saleService.createReturnCore, validateReturnItems, findSaleItem,
      applyReturnUpdates, writeReturnedQty, mkReturnItem, returnRefundTotal,
      allItemsReturned, requestedQty, setSaleStatus, roundDp,
      sequenceService.getNextValue, sequenceService.seqLookup,
      sequenceService.RETURNSEQ, inventoryService.createMovement,
      quantityChange, negativeStockAllowed, dbRet, exSaleR, exSaleItemR,
      prodA, blankString, List.find?, Except.toOption]

/-- Witness for C6 at the concrete scenario: quantity 5, returnedQty 3;
returning 3 more fails, returning 2 succeeds and voids the sale. -/
theorem return_validation_update_status_witness :
    (saleService.createReturn dbRet "s1" [{ productId := "pA", quantity := 3 }]
      "defect" "u1" "r1" (.ok ()) = .error (.excessiveReturnQuantity 2))
    ∧ ((saleService.createReturn dbRet "s1"
          [{ productId := "pA", quantity := 2 }]
          "defect" "u1" "r1" (.ok ())).toOption.map
        (fun res => res.2.sales.map
          (fun s => (s.status, s.items.map (fun si => si.returnedQty)))) =
        some [(SaleStatus.VOIDED, [5])]) := by
  have h := return_validation_update_status dbRet "s1"
    [{ productId := "pA", quantity := 2 }] "defect" "u1" "r1" (.ok ())
    exSaleR rfl (by decide) (by decide) (by decide) (by decide) (by decide)
    (by decide)
  exact ⟨h.2.2.2.2.1, h.2.2.2.2.2⟩

/-- Witness for C8 at the concrete scenario: snapshot price 100, current
product price 999, returning 2 units refunds 200. -/
theorem return_refund_snapshot_price_witness :
    exReturnRec.totalRefund = roundDp 2 (returnRefundTotal exSaleR.items
      [{ productId := "pA", quantity := 2 }])
    ∧ exReturnRec.totalRefund =
        (exReturnRec.items.map (fun rc => rc.refundAmount)).sum
    ∧ ((saleService.createReturn dbRet "s1"
          [{ productId := "pA", quantity := 2 }]
          "defect" "u1" "r1" (.ok ())).toOption.map
        (fun res => (res.1.totalRefund,
          res.1.items.map (fun rc => rc.refundAmount))) =
        some (200, [200])) := by
  have h := return_refund_snapshot_price dbRet "s1"
    [{ productId := "pA", quantity := 2 }] "defect" "u1" "r1" (.ok ())
    exSaleR exReturnRec rfl
    (by
      intro si hsi
      have : si = exSaleItemR := by
        simpa [exSaleR] using hsi
      subst this
      exact ⟨10000, by norm_num [exSaleItemR]⟩)
    (by
      rw [createReturn_eq_core]
      simp [saleService.createReturnCore, validateReturnItems, findSaleItem,
        applyReturnUpdates, writeReturnedQty, mkReturnItem, returnRefundTotal,
        allItemsReturned, requestedQty, setSaleStatus, roundDp,
        sequenceService.getNextValue, sequenceService.seqLookup,
        sequenceService.RETURNSEQ, inventoryService.createMovement,
        quantityChange, negativeStockAllowed, dbRet, exSaleR, exSaleItemR,
        prodA, blankString, List.find?, Except.toOption, exReturnRec]
      norm_num)
  exact ⟨h.2.1, h.2.2.2.1, h.2.2.2.2⟩
